import Mathlib

/-!
# Verification of the dungeon-crawler simulation core (Project-xolo)

Shallow embedding of the parts of the code relevant to the checked claims:

* `PlayerM`   — `src/player.py` (`Player.take_damage`)
* `EnemyM`    — `src/enemy.py` (`Enemy.attack_player`, melee branch)
* `BossM`     — `src/game_src/boss.py` (`Boss.update` / `Boss.enrage`)
* `AltarM`    — `src/game_src/level.py` (`Level.check_altar_activation`)
* `Ricochet`  — `src/new_enemy_types.py` (`RicochetProjectile.update` / `should_remove`)
* `ProjM`     — `src/combat.py` (`Projectile.update`, `CombatSystem.update_projectiles`)
* `Knockback` — `src/combat.py` (`CombatSystem.apply_knockback`)
* `Melee`     — `src/combat.py` (`CombatSystem.is_in_melee_range`)
* `LevelGen`  — `src/level.py` (`Level.generate_level` and helpers)

Python floats are modelled as rationals (`ℚ`); the only genuinely
transcendental code (angles in the melee hit test) is modelled over `ℝ`
with propositional predicates.  A float comparison `math.sqrt d2 <= r` is
embedded without leaving `ℚ` as `0 ≤ r ∧ d2 ≤ r ^ 2`, which is equivalent
for the nonnegative radicand `d2` produced by `dx**2 + dy**2`.
Randomness (Python's global `random` module) is modelled as an explicit
stream of natural numbers consumed draw by draw.
-/

/-- Embeds the float comparison `math.sqrt d2 <= r` over `ℚ`:
for `0 ≤ d2` it holds iff `0 ≤ r ∧ d2 ≤ r ^ 2`. -/
def sqrtLe (d2 r : ℚ) : Bool :=
  decide (0 ≤ r) && decide (d2 ≤ r ^ 2)

/-- Python's `int(x)` on a float: truncation toward zero. -/
def pyInt (x : ℚ) : ℤ :=
  if 0 ≤ x then ⌊x⌋ else -⌊-x⌋

/-- Squared Euclidean distance between two points, the radicand of the
`math.sqrt(dx**2 + dy**2)` computed throughout the code. -/
def dist2 (a b : ℚ × ℚ) : ℚ :=
  (b.1 - a.1) ^ 2 + (b.2 - a.2) ^ 2

namespace PlayerM

/-- The fields of `src/player.py` `Player` read or written by
`take_damage` (lines 183-200).  `__init__` sets
`damage_immunity_duration = 0.5` and `last_damage_time = 0`. -/
structure Player where
  current_health : ℚ
  max_health : ℚ
  last_damage_time : ℚ
  damage_immunity_duration : ℚ
  radius : ℚ
  deriving Repr, DecidableEq

/-- Embedding of `Player.take_damage` (src/player.py:183-200).  `current_time` is the
wall-clock seconds read from `pygame.time.get_ticks() / 1000.0`.
Returns the updated player and the Python return value
(`True` iff the player died on this call). -/
def take_damage (p : Player) (amount : ℤ) (current_time : ℚ) : Player × Bool :=
  if current_time - p.last_damage_time < p.damage_immunity_duration then
    (p, false)
  else
    let h := max 0 (p.current_health - (amount : ℚ))
    ({ p with current_health := h, last_damage_time := current_time },
     decide (h ≤ 0))

end PlayerM

namespace EnemyM

/-- The fields of `src/enemy.py` `Enemy` read by `attack_player`
(lines 609-640). -/
structure Enemy where
  position : ℚ × ℚ
  damage : ℤ
  weapon_type : String
  weapon_range : ℚ
  weapon_arc : ℚ
  weapon_damage_multiplier : ℚ
  deriving Repr, DecidableEq

/-- Embedding of `Enemy.attack_player` (src/enemy.py:609-640), its effect on the player.
The ranged branch only spawns a projectile (the player is untouched); the
melee branch calls `player.take_damage(damage)` iff
`math.sqrt(dx**2 + dy**2) <= self.weapon_range`.  The returned `Bool`
records whether `take_damage` was invoked. -/
def attack_player (e : Enemy) (p : PlayerM.Player) (player_pos : ℚ × ℚ)
    (current_time : ℚ) : PlayerM.Player × Bool :=
  let damage := pyInt ((e.damage : ℚ) * e.weapon_damage_multiplier)
  if e.weapon_type = "ranged" then
    (p, false)
  else
    if sqrtLe (dist2 e.position player_pos) e.weapon_range then
      ((PlayerM.take_damage p damage current_time).1, true)
    else
      (p, false)

end EnemyM

namespace BossM

/-- The fields of `src/game_src/boss.py` `Boss` involved in the enrage
transition (`Boss.update`, lines 117-141).  `state_dead` models
`self.state == "dead"` (set by `Enemy.take_damage` on death);
`enrage_threshold = 0.3` and `enraged = False` at construction. -/
structure Boss where
  current_health : ℚ
  max_health : ℚ
  enrage_threshold : ℚ
  enraged : Bool
  state_dead : Bool
  speed : ℚ
  attack_cooldown : ℚ
  special_attack_cooldown : ℚ
  deriving Repr, DecidableEq

/-- Embedding of `Enemy.get_health_percentage` (src/enemy.py:679-681; `game_src`'s
`enemy.py` copy is not in the repository snapshot, the sibling
`src/enemy.py` provides the method `Boss` inherits). -/
def get_health_percentage (b : Boss) : ℚ :=
  if 0 < b.max_health then b.current_health / b.max_health else 0

/-- Embedding of `Enemy.is_alive` (src/enemy.py:675-677). -/
def is_alive (b : Boss) : Bool :=
  decide (0 < b.current_health) && !b.state_dead

/-- Embedding of `Boss.enrage` (src/game_src/boss.py:135-141): a one-way transition
multiplying speed by 2.0, attack cooldown by 0.5 and special-attack
cooldown by 0.6. -/
def enrage (b : Boss) : Boss :=
  { b with
    enraged := true
    speed := b.speed * 2
    attack_cooldown := b.attack_cooldown * (1 / 2)
    special_attack_cooldown := b.special_attack_cooldown * (3 / 5) }

/-- The enrage-relevant part of `Boss.update` (src/game_src/boss.py:117-133):
the early return when dead, then
`if not self.enraged and self.get_health_percentage() <= self.enrage_threshold:
self.enrage()`.  No other statement of `update` (ability use,
`super().update`) writes `enraged`, `speed`, `attack_cooldown` or
`special_attack_cooldown`, so this captures their evolution exactly. -/
def update_enrage (b : Boss) : Boss :=
  if ¬ is_alive b then b
  else if ¬ b.enraged ∧ get_health_percentage b ≤ b.enrage_threshold then enrage b
  else b

/-- Health changing between ticks (damage from the player, modelled as an
arbitrary externally imposed health value), followed by one `update`. -/
def step (b : Boss) (h : ℚ) : Boss :=
  update_enrage { b with current_health := h }

/-- A whole boss lifetime: the health values observed at successive ticks. -/
def run (b : Boss) (hs : List ℚ) : Boss :=
  hs.foldl step b

end BossM

namespace AltarM

/-- The fields of `src/game_src/level.py` `Level` read or written by
`check_altar_activation` (lines 598-615) and `check_key_collection`
(lines 585-596). -/
structure GLevel where
  key_collected : Bool
  level_complete : Bool
  key_position : Option (ℚ × ℚ)
  altar_position : Option (ℚ × ℚ)
  boss : Option BossM.Boss
  deriving Repr, DecidableEq

/-- Embedding of `Level.check_altar_activation` (src/game_src/level.py:598-615).
The guard `if self.key_collected and not self.level_complete and
self.altar_position:` uses Python truthiness of the optional position
(`None` is falsy).  `e_pressed` models
`pygame.key.get_pressed()[pygame.K_e]`.  Returns the updated level and
the Python return value. -/
def check_altar_activation (lv : GLevel) (player : PlayerM.Player)
    (player_pos : ℚ × ℚ) (e_pressed : Bool) : GLevel × Bool :=
  match lv.altar_position with
  | none => (lv, false)
  | some altar =>
    if lv.key_collected ∧ ¬ lv.level_complete then
      if (lv.boss.map BossM.is_alive).getD false then
        (lv, false)
      else
        if sqrtLe (dist2 player_pos altar) (player.radius + 25) ∧ e_pressed then
          ({ lv with level_complete := true }, true)
        else
          (lv, false)
    else (lv, false)

end AltarM

namespace Ricochet

/-- The tile grid as seen by `RicochetProjectile.update`:
`width`, `height`, `tile_size` and which in-grid tiles are walls. -/
structure WLevel where
  width : ℤ
  height : ℤ
  tile_size : ℤ
  wallTile : ℤ → ℤ → Bool

/-- Modelled from the spec: `Level.is_wall(x, y)` is called by
`RicochetProjectile.update` (src/new_enemy_types.py:159-168) with pixel
coordinates but is defined nowhere in the repository.  Per the spec
(§4.5: ricochet happens "on wall contact") and the conventions of the
`Level` class that does exist (`get_tile_at_world_pos` divides by
`tile_size`; `is_floor_tile` and `check_wall_collision` treat
out-of-bounds tiles as "not this kind"), the point is in a wall iff the
tile containing it is an in-bounds wall tile.  Python's `//` on ints is
floor division, i.e. `Int.fdiv`. -/
def is_wall (lv : WLevel) (x y : ℤ) : Bool :=
  let tx := Int.fdiv x lv.tile_size
  let ty := Int.fdiv y lv.tile_size
  decide (0 ≤ tx) && decide (tx < lv.width) &&
  decide (0 ≤ ty) && decide (ty < lv.height) &&
  lv.wallTile tx ty

/-- State of `src/new_enemy_types.py` `RicochetProjectile` (lines 122-142):
the fields read or written by `update` and `should_remove`. -/
structure RProj where
  position : ℚ × ℚ
  direction : ℚ × ℚ
  damage : ℤ
  max_ricochets : ℤ
  ricochets_left : ℤ
  speed : ℚ
  lifetime : ℚ
  max_lifetime : ℚ
  deriving Repr, DecidableEq

/-- The position `RicochetProjectile.update` moves to before the wall
check (src/new_enemy_types.py:154-156). -/
def advance (p : RProj) (dt : ℚ) : ℚ × ℚ :=
  (p.position.1 + p.direction.1 * p.speed * dt,
   p.position.2 + p.direction.2 * p.speed * dt)

/-- Embedding of `RicochetProjectile.update` (src/new_enemy_types.py:144-183).
`lifetime` accumulates `dt`; the projectile moves; then, if the new
point is in a wall AND `ricochets_left > 0`:
* wall at `(old_x, new_y)`  → negate `direction[0]`, reset `position[0]`;
* else wall at `(new_x, old_y)` → negate `direction[1]`, reset `position[1]`;
* else (corner) → negate both and reset both;
then `ricochets_left -= 1` and `damage = int(damage * 0.9)` (for the
nonnegative damages occurring, `int(d * 0.9) = ⌊9 * d / 10⌋`, the
float product never crossing an integer boundary at these magnitudes). -/
def update (p : RProj) (dt : ℚ) (lv : WLevel) : RProj :=
  let lt := p.lifetime + dt
  let oldPos := p.position
  let newPos := advance p dt
  if is_wall lv (pyInt newPos.1) (pyInt newPos.2) && decide (0 < p.ricochets_left) then
    let bounced :=
      if is_wall lv (pyInt oldPos.1) (pyInt newPos.2) then
        { p with direction := (-p.direction.1, p.direction.2)
                 position := (oldPos.1, newPos.2) }
      else if is_wall lv (pyInt newPos.1) (pyInt oldPos.2) then
        { p with direction := (p.direction.1, -p.direction.2)
                 position := (newPos.1, oldPos.2) }
      else
        { p with direction := (-p.direction.1, -p.direction.2)
                 position := oldPos }
    { bounced with
      lifetime := lt
      ricochets_left := p.ricochets_left - 1
      damage := pyInt ((p.damage : ℚ) * (9 / 10)) }
  else
    { p with lifetime := lt, position := newPos }

/-- Embedding of `RicochetProjectile.should_remove` (src/new_enemy_types.py:192-194). -/
def should_remove (p : RProj) : Bool :=
  decide (p.max_lifetime ≤ p.lifetime) || decide (p.ricochets_left < 0)

end Ricochet

namespace ProjM

/-- State of `src/combat.py` `Projectile` (lines 11-42): the simulation-relevant
fields (`trail`/color are visual only).  `is_turn_coat` marks the Turn
Coat spell projectile, which mind-controls instead of damaging. -/
structure Proj where
  position : ℚ × ℚ
  velocity : ℚ × ℚ
  damage : ℤ
  age : ℚ
  lifetime : ℚ
  radius : ℚ
  is_turn_coat : Bool
  deriving Repr, DecidableEq

/-- Embedding of `Projectile.update` (src/combat.py:44-59): advance by `velocity·dt`,
age by `dt`, and return `age < lifetime` (`False` = remove). -/
def Proj.update (p : Proj) (dt : ℚ) : Proj × Bool :=
  let p' := { p with
    position := (p.position.1 + p.velocity.1 * dt, p.position.2 + p.velocity.2 * dt)
    age := p.age + dt }
  (p', decide (p'.age < p'.lifetime))

/-- Embedding of `Projectile.check_collision` (src/combat.py:69-74):
`math.sqrt(dx**2 + dy**2) <= self.radius + target_radius`. -/
def Proj.check_collision (p : Proj) (target_pos : ℚ × ℚ) (target_radius : ℚ) : Bool :=
  sqrtLe (dist2 p.position target_pos) (p.radius + target_radius)

/-- The enemy fields read by `CombatSystem.update_projectiles`
(src/enemy.py fields; `is_alive` is src/enemy.py:675-677,
`take_damage` src/enemy.py:658-667). -/
structure CEnemy where
  position : ℚ × ℚ
  radius : ℚ
  current_health : ℤ
  state_dead : Bool
  mind_controlled : Bool
  deriving Repr, DecidableEq

def CEnemy.is_alive (e : CEnemy) : Bool :=
  decide (0 < e.current_health) && !e.state_dead

/-- Embedding of `Enemy.take_damage` (src/enemy.py:658-667): clamp at 0 and flip to
the `"dead"` state when health reaches 0. -/
def CEnemy.take_damage (e : CEnemy) (amount : ℤ) : CEnemy :=
  let h := max 0 (e.current_health - amount)
  if h ≤ 0 then { e with current_health := h, state_dead := true }
  else { e with current_health := h }

/-- Why a projectile left the list this tick (or stayed). -/
inductive Cause where
  | expired
  | wall
  | enemyHit (i : ℕ)
  | bossHit
  | kept
  deriving Repr, DecidableEq

/-- The effect of the Turn Coat / damage branch of an enemy hit
(src/combat.py:301-316). -/
def hitEnemy (p : Proj) (e : CEnemy) : CEnemy :=
  if p.is_turn_coat then { e with mind_controlled := true }
  else e.take_damage p.damage

/-- One iteration of the `for projectile in self.projectiles[:]` loop of
`CombatSystem.update_projectiles` (src/combat.py:284-332) for a single
projectile: advance, then the short-circuited removal tests in source
order — `update` returning `False` (lifetime), wall collision, first
living colliding enemy (hit applied), living colliding boss.
`wallCheck pos r` stands for `level.check_wall_collision(pos, r)`.
Returns the removal cause, the advanced projectile, the enemy list and
the boss after the tick. -/
def projectileTick (p : Proj) (dt : ℚ) (wallCheck : ℚ × ℚ → ℚ → Bool)
    (enemies : List CEnemy) (boss : Option CEnemy) :
    Cause × Proj × List CEnemy × Option CEnemy :=
  let (p', keep) := p.update dt
  if !keep then (.expired, p', enemies, boss)
  else if wallCheck p'.position p'.radius then (.wall, p', enemies, boss)
  else
    match enemies.findIdx? (fun e => e.is_alive && p'.check_collision e.position e.radius) with
    | some i => (.enemyHit i, p', enemies.modify (hitEnemy p') i, boss)
    | none =>
      match boss with
      | some b =>
        if b.is_alive && p'.check_collision b.position b.radius then
          (.bossHit, p', enemies, some (b.take_damage p'.damage))
        else (.kept, p', enemies, boss)
      | none => (.kept, p', enemies, boss)

/-- The spec's removal priority, for comparison (claim C3): "collision
tests are short-circuited in priority order: wall → enemy/boss →
lifetime", i.e. the lifetime test comes last. -/
def specProjectileTick (p : Proj) (dt : ℚ) (wallCheck : ℚ × ℚ → ℚ → Bool)
    (enemies : List CEnemy) (boss : Option CEnemy) :
    Cause × Proj × List CEnemy × Option CEnemy :=
  let (p', keep) := p.update dt
  if wallCheck p'.position p'.radius then (.wall, p', enemies, boss)
  else
    match enemies.findIdx? (fun e => e.is_alive && p'.check_collision e.position e.radius) with
    | some i => (.enemyHit i, p', enemies.modify (hitEnemy p') i, boss)
    | none =>
      match boss with
      | some b =>
        if b.is_alive && p'.check_collision b.position b.radius then
          (.bossHit, p', enemies, some (b.take_damage p'.damage))
        else if !keep then (.expired, p', enemies, boss)
        else (.kept, p', enemies, boss)
      | none =>
        if !keep then (.expired, p', enemies, boss)
        else (.kept, p', enemies, boss)

end ProjM

namespace Knockback

/-- The level data read by `CombatSystem.apply_knockback`
(src/combat.py:485-523): bounds, `tile_size` and the
`tiles[tile_y][tile_x].type == "wall"` test for in-bounds tiles. -/
structure KLevel where
  width : ℤ
  height : ℤ
  tile_size : ℚ
  wallTile : ℤ → ℤ → Bool

/-- The acceptance test of `apply_knockback`
(src/combat.py:499-504 and 514-518):
`tile = int(p // tile_size)` (float floor division, so `⌊p / tile_size⌋`),
then `0 <= tile_x < width and 0 <= tile_y < height and
tiles[tile_y][tile_x].type != "wall"`. -/
def validPos (lv : KLevel) (x y : ℚ) : Bool :=
  let tx := ⌊x / lv.tile_size⌋
  let ty := ⌊y / lv.tile_size⌋
  decide (0 ≤ tx) && decide (tx < lv.width) &&
  decide (0 ≤ ty) && decide (ty < lv.height) && !(lv.wallTile tx ty)

/-- The `for distance_fraction in [0.5, 0.25, 0.1]` retry loop of
`apply_knockback` (src/combat.py:511-521): the first fraction whose
destination passes `validPos` wins; if none does the target stays. -/
def tryFractions (lv : KLevel) (pos : ℚ × ℚ) (kx ky : ℚ) :
    List ℚ → ℚ × ℚ
  | [] => pos
  | f :: rest =>
    let tx := pos.1 + kx * f
    let ty := pos.2 + ky * f
    if validPos lv tx ty then (tx, ty) else tryFractions lv pos kx ky rest

/-- Embedding of `CombatSystem.apply_knockback` (src/combat.py:485-523), its effect on
`target.position`.  The code displaces by
`(cos attack_angle * d, sin attack_angle * d)`; the unit direction
`(c, s) = (cos attack_angle, sin attack_angle)` enters the model as a
parameter so that the arithmetic stays in `ℚ`. -/
def apply_knockback (lv : KLevel) (pos : ℚ × ℚ) (c s : ℚ)
    (knockback_distance : ℚ) : ℚ × ℚ :=
  if knockback_distance ≤ 0 then pos
  else
    let kx := c * knockback_distance
    let ky := s * knockback_distance
    if validPos lv (pos.1 + kx) (pos.2 + ky) then (pos.1 + kx, pos.2 + ky)
    else tryFractions lv pos kx ky [1/2, 1/4, 1/10]

end Knockback

namespace Melee

/-- The owner fields read by `CombatSystem.is_in_melee_range`
(src/combat.py:208-238): position, base `melee_range`, `melee_arc` (in
radians), and the equipped melee weapon's `range_multiplier` when
`self.owner.inventory.melee_weapon` is set. -/
structure MOwner where
  position : ℝ × ℝ
  melee_range : ℝ
  melee_arc : ℝ
  range_multiplier : Option ℝ

/-- The target fields read by `is_in_melee_range`. -/
structure MTarget where
  position : ℝ × ℝ
  radius : ℝ

/-- Characterization of `math.atan2(dy, dx)`: the argument of the complex point
`dx + i·dy`, in `(-π, π]`; `Complex.arg ⟨dx, dy⟩` is exactly that.
(Stated as a characterization rather than a `def` because `ℝ`-valued
data has no executable code; `Prop`-valued definitions below are erased
and need none.) -/
def isAtan2 (dy dx θ : ℝ) : Prop := θ = Complex.arg ⟨dx, dy⟩

/-- Embedding of `CombatSystem.is_in_melee_range` (src/combat.py:208-238):
`weapon_range = melee_range * range_multiplier` (multiplier 1 with no
weapon); reject when `center_distance > weapon_range + target_radius`;
otherwise accept iff `min(|target_angle - attack_angle|,
2π - |target_angle - attack_angle|) ≤ melee_arc / 2`, where
`target_angle = math.atan2(dy, dx)`. -/
def is_in_melee_range (o : MOwner) (t : MTarget) (attack_angle : ℝ) : Prop :=
  ¬ Real.sqrt ((t.position.1 - o.position.1) ^ 2 + (t.position.2 - o.position.2) ^ 2)
      > o.melee_range * (o.range_multiplier.getD 1) + t.radius ∧
    min |Complex.arg ⟨t.position.1 - o.position.1, t.position.2 - o.position.2⟩
          - attack_angle|
        (2 * Real.pi
          - |Complex.arg ⟨t.position.1 - o.position.1, t.position.2 - o.position.2⟩
              - attack_angle|)
      ≤ o.melee_arc / 2

/-- The claim's reading of the angular test: the absolute angular
difference `|a - b|`, normalized into `[0, π]` — i.e. the absolute value
of the representative in `(-π, π]` of the difference taken as an angle
(`Real.Angle` is `ℝ` modulo `2π`) — is at most `bound`. -/
def specAngleDiffLe (a b bound : ℝ) : Prop :=
  |Real.Angle.toReal ((a - b : ℝ) : Real.Angle)| ≤ bound

end Melee

namespace LevelGen

/-- Embedding of `Tile.type` (src/level.py:12-18): wall, floor or door. -/
inductive TileKind where
  | wall
  | floor
  | door
  deriving Repr, DecidableEq

/-- The `Level.tiles` grid, row-major (`tiles[y][x]`). -/
abbrev Grid := List (List TileKind)

/-- The global `random` module's hidden state, modelled as the stream of
draws it will produce; each draw consumes the head. -/
abbrev RNG := ℕ → ℕ

/-- Consume one draw. -/
def shift (s : RNG) : RNG := fun i => s (i + 1)

/-- Embedding of `random.randint(a, b)` (inclusive); every call site has `a ≤ b`. -/
def randint (a b : ℕ) (s : RNG) : ℕ × RNG :=
  (a + s 0 % (b + 1 - a), shift s)

/-- Embedding of `random.choice([True, False])`. -/
def randBool (s : RNG) : Bool × RNG :=
  (s 0 % 2 == 0, shift s)

/-- A room `(x, y, width, height)` in tile coordinates
(src/level.py:78-110). -/
structure Room where
  x : ℕ
  y : ℕ
  w : ℕ
  h : ℕ
  deriving Repr, DecidableEq

/-- Initial grid: `generate_level` starts from all walls (src/level.py:57-59). -/
def initTiles (width height : ℕ) : Grid :=
  List.replicate height (List.replicate width TileKind.wall)

/-- Write a floor tile at `(x, y)` (row `y`, column `x`). -/
def setFloor (g : Grid) (x y : ℕ) : Grid :=
  g.modify (fun row => row.set x TileKind.floor) y

/-- Read the tile at `(x, y)`; out-of-grid reads never occur in the
guarded code paths, `.wall` is an arbitrary default. -/
def tileAt (g : Grid) (x y : ℕ) : TileKind :=
  ((g[y]?).bind (fun row => row[x]?)).getD TileKind.wall

/-- The grid really is a `height × width` array (holds for `initTiles`
and is preserved by every carve operation). -/
def gridShape (g : Grid) (width height : ℕ) : Prop :=
  g.length = height ∧ ∀ row ∈ g, row.length = width

/-- Two RNG streams agree on their first `n` draws. -/
def agree (n : ℕ) (s₁ s₂ : RNG) : Prop :=
  ∀ i < n, s₁ i = s₂ i

/-- Embedding of `Level.carve_room` (src/level.py:125-130): set every room tile that
lies inside the grid to floor. -/
def carve_room (width height : ℕ) (g : Grid) (x y w h : ℕ) : Grid :=
  (List.range h).foldl
    (fun g ry =>
      (List.range w).foldl
        (fun g rx =>
          if x + rx < width ∧ y + ry < height then setFloor g (x + rx) (y + ry) else g)
        g)
    g

/-- Embedding of `Level.room_overlaps` (src/level.py:112-123): axis-aligned overlap
with a 1-tile padding against any previously accepted room. -/
def room_overlaps (r : Room) (rooms : List Room) : Bool :=
  rooms.any fun r2 =>
    decide (r.x < r2.x + r2.w + 1) && decide (r2.x < r.x + r.w + 1) &&
    decide (r.y < r2.y + r2.h + 1) && decide (r2.y < r.y + r.h + 1)

/-- One pass of the `for _ in range(attempts)` loop of
`Level.generate_rooms` (src/level.py:85-108), recursing on the remaining
attempts.  `max(1, width - room_width - 1)` is `max 1` of a truncated
subtraction: both give `1` whenever the Python value would be `≤ 1`.
The `max_x < 1` guard (src/level.py:94-95) is kept although `max 1 _`
makes it unreachable. -/
def roomsGo (width height min_room max_room : ℕ) :
    ℕ → List Room × Grid × RNG → List Room × Grid × RNG
  | 0, st => st
  | fuel + 1, (rooms, g, s) =>
    let (rw, s) := randint min_room max_room s
    let (rh, s) := randint min_room max_room s
    let max_x := max 1 (width - rw - 1)
    let max_y := max 1 (height - rh - 1)
    if max_x < 1 ∨ max_y < 1 then
      roomsGo width height min_room max_room fuel (rooms, g, s)
    else
      let (rx, s) := randint 1 max_x s
      let (ry, s) := randint 1 max_y s
      let room : Room := ⟨rx, ry, rw, rh⟩
      if room_overlaps room rooms then
        roomsGo width height min_room max_room fuel (rooms, g, s)
      else
        let rooms' := rooms ++ [room]
        let g' := carve_room width height g rx ry rw rh
        if 8 ≤ rooms'.length then (rooms', g', s)
        else roomsGo width height min_room max_room fuel (rooms', g', s)

/-- Embedding of `Level.generate_rooms` (src/level.py:78-110): room-size bounds
derived from the level size, then 100 sampling attempts. -/
def generate_rooms (width height : ℕ) (g : Grid) (s : RNG) :
    List Room × Grid × RNG :=
  let min_room := min 4 (max 2 (width / 4))
  let max_room := min 12 (max (max (min_room + 1) (width / 3)) (height / 3))
  roomsGo width height min_room max_room 100 ([], g, s)

/-- Embedding of `Level.carve_corridor` (src/level.py:154-165): a straight run of
floor tiles between two points sharing a coordinate, bounds-checked. -/
def carve_corridor (width height : ℕ) (g : Grid) (x1 y1 x2 y2 : ℕ) : Grid :=
  if x1 = x2 then
    (List.range (max y1 y2 - min y1 y2 + 1)).foldl
      (fun g i =>
        if x1 < width ∧ min y1 y2 + i < height then setFloor g x1 (min y1 y2 + i) else g)
      g
  else
    (List.range (max x1 x2 - min x1 x2 + 1)).foldl
      (fun g i =>
        if min x1 x2 + i < width ∧ y1 < height then setFloor g (min x1 x2 + i) y1 else g)
      g

/-- Embedding of `Level.connect_rooms` (src/level.py:132-152): consecutive accepted
rooms are joined centre-to-centre by an L-shaped corridor, the bend
orientation drawn from the RNG. -/
def connect_rooms (width height : ℕ) (g : Grid) (rooms : List Room) (s : RNG) :
    Grid × RNG :=
  (rooms.zip rooms.tail).foldl
    (fun (st : Grid × RNG) (pr : Room × Room) =>
      let (g, s) := st
      let (r1, r2) := pr
      let x1 := r1.x + r1.w / 2
      let y1 := r1.y + r1.h / 2
      let x2 := r2.x + r2.w / 2
      let y2 := r2.y + r2.h / 2
      let (horizontalFirst, s) := randBool s
      if horizontalFirst then
        (carve_corridor width height (carve_corridor width height g x1 y1 x2 y1) x2 y1 x2 y2, s)
      else
        (carve_corridor width height (carve_corridor width height g x1 y1 x1 y2) x1 y2 x2 y2, s))
    (g, s)

/-- The generated level data relevant to the claims: the grid, the
accepted rooms and the spawn position (`tile_size = 32`,
src/level.py:37). -/
structure GenLevel where
  width : ℕ
  height : ℕ
  tiles : Grid
  rooms : List Room
  spawn_position : ℕ × ℕ
  deriving Repr, DecidableEq

/-- Embedding of `Level.generate_level` (src/level.py:55-76): all-wall grid, rooms,
corridors, then the spawn position: the centre of the first room scaled
by `tile_size`, or the fixed fallback `(tile_size * 2, tile_size * 2)`
when no room was produced. -/
def generate_level (width height : ℕ) (s : RNG) : GenLevel :=
  let g0 := initTiles width height
  let rgs := generate_rooms width height g0 s
  let rooms := rgs.1
  let gs := connect_rooms width height rgs.2.1 rooms rgs.2.2
  let spawn :=
    match rooms with
    | [] => (32 * 2, 32 * 2)
    | r :: _ => ((r.x + r.w / 2) * 32, (r.y + r.h / 2) * 32)
  { width := width, height := height, tiles := gs.1, rooms := rooms,
    spawn_position := spawn }

/-- Embedding of `Level.is_floor_tile` (src/level.py:253-257). -/
def is_floor_tile (lv : GenLevel) (tx ty : ℕ) : Bool :=
  decide (tx < lv.width) && decide (ty < lv.height) &&
  decide (tileAt lv.tiles tx ty = TileKind.floor)

/-- Embedding of `Level.get_tile_at_world_pos` (src/level.py:247-251) applied to the
spawn position (whose coordinates are nonnegative integers). -/
def spawnTile (lv : GenLevel) : ℕ × ℕ :=
  (lv.spawn_position.1 / 32, lv.spawn_position.2 / 32)

end LevelGen

/-!
## Theorems

One theorem per claim of the specification review, with auxiliary lemmas
(`aux_` prefix) shared between them.
-/

/-- C9: `Player.take_damage` is a no-op during the player's 0.5-second
damage-immunity window: called within 0.5 seconds of the last successful
damage application it returns `False` and leaves the whole player state
(health and immunity timer included) unchanged; outside the window it
subtracts the amount, floors health at 0, and restarts the window at the
current time. -/
theorem C9_player_damage_immunity (p : PlayerM.Player) (amount : ℤ) (t : ℚ)
    (himm : p.damage_immunity_duration = 1 / 2) :
    (t - p.last_damage_time < 1 / 2 →
      PlayerM.take_damage p amount t = (p, false)) ∧
    (1 / 2 ≤ t - p.last_damage_time →
      (PlayerM.take_damage p amount t).1.current_health
          = max 0 (p.current_health - (amount : ℚ)) ∧
      (PlayerM.take_damage p amount t).1.last_damage_time = t ∧
      (PlayerM.take_damage p amount t).1.damage_immunity_duration = 1 / 2) := by
  unfold PlayerM.take_damage
  rw [himm]
  refine ⟨fun h => ?_, fun h => ?_⟩
  · rw [if_pos h]
  · rw [if_neg (not_lt.mpr h)]
    exact ⟨rfl, rfl, rfl⟩

/-- Witness for C9 at a concrete player: a hit at `t = 1/4` with the
previous hit at `t = 0` is swallowed whole. -/
theorem C9_witness :
    PlayerM.take_damage ⟨100, 100, 0, 1 / 2, 15⟩ 30 (1 / 4)
      = (⟨100, 100, 0, 1 / 2, 15⟩, false) :=
  (C9_player_damage_immunity ⟨100, 100, 0, 1 / 2, 15⟩ 30 (1 / 4) rfl).1
    (by norm_num)

/-- One boss step either leaves the enrage latch and the three
enrage-affected stats untouched, or fires the transition from the
un-enraged state, applying each multiplier exactly once. -/
theorem aux_boss_step_cases (b : BossM.Boss) (h : ℚ) :
    ((BossM.step b h).enraged = b.enraged ∧
     (BossM.step b h).speed = b.speed ∧
     (BossM.step b h).attack_cooldown = b.attack_cooldown ∧
     (BossM.step b h).special_attack_cooldown = b.special_attack_cooldown) ∨
    (b.enraged = false ∧ (BossM.step b h).enraged = true ∧
     (BossM.step b h).speed = b.speed * 2 ∧
     (BossM.step b h).attack_cooldown = b.attack_cooldown * (1 / 2) ∧
     (BossM.step b h).special_attack_cooldown
        = b.special_attack_cooldown * (3 / 5)) := by
  unfold BossM.step BossM.update_enrage BossM.enrage
  split_ifs with h1 h2
  · exact Or.inr ⟨by simpa using h2.1, by simp, by simp, by simp, by simp⟩
  · exact Or.inl ⟨rfl, rfl, rfl, rfl⟩
  · exact Or.inl ⟨rfl, rfl, rfl, rfl⟩

/-- C6: the enrage transition fires at most once per boss instance: over
any sequence of ticks with arbitrary health values imposed between them,
either the latch and the speed / attack-cooldown / special-cooldown
stats end exactly as they started, or the boss started un-enraged, ends
enraged, and each multiplier (×2 speed, ×0.5 attack cooldown, ×0.6
special cooldown) has been applied exactly once; in particular `enraged`
never reverts and the multipliers are never re-applied. -/
theorem C6_boss_enrage_once (b : BossM.Boss) (hs : List ℚ) :
    ((BossM.run b hs).enraged = b.enraged ∧
     (BossM.run b hs).speed = b.speed ∧
     (BossM.run b hs).attack_cooldown = b.attack_cooldown ∧
     (BossM.run b hs).special_attack_cooldown = b.special_attack_cooldown) ∨
    (b.enraged = false ∧ (BossM.run b hs).enraged = true ∧
     (BossM.run b hs).speed = b.speed * 2 ∧
     (BossM.run b hs).attack_cooldown = b.attack_cooldown * (1 / 2) ∧
     (BossM.run b hs).special_attack_cooldown
        = b.special_attack_cooldown * (3 / 5)) := by
  induction hs generalizing b with
  | nil => exact Or.inl ⟨rfl, rfl, rfl, rfl⟩
  | cons h hs ih =>
    have hrun : BossM.run b (h :: hs) = BossM.run (BossM.step b h) hs := rfl
    rw [hrun]
    rcases aux_boss_step_cases b h with ⟨e1, s1, a1, p1⟩ | ⟨e0, e1, s1, a1, p1⟩
    · rcases ih (BossM.step b h) with ⟨e2, s2, a2, p2⟩ | ⟨e2, f2, s2, a2, p2⟩
      · exact Or.inl ⟨e2.trans e1, s2.trans s1, a2.trans a1, p2.trans p1⟩
      · exact Or.inr ⟨e1.symm.trans e2, f2, by rw [s2, s1], by rw [a2, a1],
          by rw [p2, p1]⟩
    · rcases ih (BossM.step b h) with ⟨e2, s2, a2, p2⟩ | ⟨e2, f2, s2, a2, p2⟩
      · exact Or.inr ⟨e0, e2.trans e1, by rw [s2, s1], by rw [a2, a1],
          by rw [p2, p1]⟩
      · rw [e1] at e2
        exact absurd e2 (by simp)

/-- Evaluation: `check_altar_activation` with no altar placed does nothing. -/
theorem aux_altar_none (lv : AltarM.GLevel) (player : PlayerM.Player)
    (pos : ℚ × ℚ) (e_pressed : Bool) (h : lv.altar_position = none) :
    AltarM.check_altar_activation lv player pos e_pressed = (lv, false) := by
  unfold AltarM.check_altar_activation
  rw [h]

/-- Evaluation: `check_altar_activation` with an altar placed, as an `if` tree. -/
theorem aux_altar_some (lv : AltarM.GLevel) (player : PlayerM.Player)
    (pos : ℚ × ℚ) (e_pressed : Bool) (altar : ℚ × ℚ)
    (h : lv.altar_position = some altar) :
    AltarM.check_altar_activation lv player pos e_pressed =
      (if lv.key_collected ∧ ¬ lv.level_complete then
        if (lv.boss.map BossM.is_alive).getD false then (lv, false)
        else if sqrtLe (dist2 pos altar) (player.radius + 25) ∧ e_pressed then
          ({ lv with level_complete := true }, true)
        else (lv, false)
      else (lv, false)) := by
  unfold AltarM.check_altar_activation
  rw [h]

/-- C7: `Level.check_altar_activation` can mark the level complete only
when the key has been collected AND the boss (if any) is no longer alive
AND the player is within the activation radius of the altar; whenever it
returns `False` the level state (the completion flag included) is left
unchanged. -/
theorem C7_altar_activation_gate (lv : AltarM.GLevel) (player : PlayerM.Player)
    (pos : ℚ × ℚ) (e_pressed : Bool) :
    ((AltarM.check_altar_activation lv player pos e_pressed).2 = true →
      lv.key_collected = true ∧
      (∀ b, lv.boss = some b → BossM.is_alive b = false) ∧
      (∃ altar, lv.altar_position = some altar ∧
        sqrtLe (dist2 pos altar) (player.radius + 25) = true) ∧
      (AltarM.check_altar_activation lv player pos e_pressed).1
        = { lv with level_complete := true }) ∧
    ((AltarM.check_altar_activation lv player pos e_pressed).2 = false →
      (AltarM.check_altar_activation lv player pos e_pressed).1 = lv) := by
  rcases haltar : lv.altar_position with _ | altar
  · rw [aux_altar_none lv player pos e_pressed haltar]
    exact ⟨fun h => by simp at h, fun _ => rfl⟩
  · rw [aux_altar_some lv player pos e_pressed altar haltar]
    split_ifs with h1 h2 h3
    · exact ⟨fun h => by simp at h, fun _ => rfl⟩
    · refine ⟨fun _ => ⟨?_, ?_, ⟨altar, rfl, ?_⟩, by rw [haltar]⟩,
        fun h => by simp at h⟩
      · simpa using h1.1
      · intro b hb
        rw [hb] at h2
        simpa using h2
      · simpa using h3.1
    · exact ⟨fun h => by simp at h, fun _ => rfl⟩
    · exact ⟨fun h => by simp at h, fun _ => rfl⟩

/-- Witness for C7: with the key collected, no boss, an altar at the
origin and the player 10 units away pressing E, the altar fires and the
completion flag is set. -/
theorem C7_witness :
    (⟨true, false, none, some (0, 0), none⟩ : AltarM.GLevel).key_collected = true ∧
    (∀ b, (⟨true, false, none, some (0, 0), none⟩ : AltarM.GLevel).boss = some b →
      BossM.is_alive b = false) ∧
    (∃ altar,
      (⟨true, false, none, some (0, 0), none⟩ : AltarM.GLevel).altar_position
        = some altar ∧
      sqrtLe (dist2 (10, 0) altar) ((15 : ℚ) + 25) = true) ∧
    (AltarM.check_altar_activation ⟨true, false, none, some (0, 0), none⟩
        ⟨100, 100, 0, 1 / 2, 15⟩ (10, 0) true).1
      = { (⟨true, false, none, some (0, 0), none⟩ : AltarM.GLevel) with
          level_complete := true } :=
  (C7_altar_activation_gate ⟨true, false, none, some (0, 0), none⟩
      ⟨100, 100, 0, 1 / 2, 15⟩ (10, 0) true).1
    (by norm_num [AltarM.check_altar_activation, sqrtLe, dist2])

/-- C10: an enemy's melee attack (`Enemy.attack_player` with a non-ranged
weapon) damages the player iff the centre-to-centre distance is at most
the enemy's `weapon_range`; the weapon arc and the player's radius play
no role in the outcome.  Stated for an attack that lands outside the
player's immunity window with positive computed damage on a live
player. -/
theorem C10_enemy_melee_hit (e : EnemyM.Enemy) (p : PlayerM.Player)
    (pos : ℚ × ℚ) (t : ℚ)
    (hw : ¬ e.weapon_type = "ranged")
    (hrange : 0 ≤ e.weapon_range)
    (hwin : p.damage_immunity_duration ≤ t - p.last_damage_time)
    (hdmg : 0 < pyInt ((e.damage : ℚ) * e.weapon_damage_multiplier))
    (hhp : 0 < p.current_health) :
    ((EnemyM.attack_player e p pos t).2 = true ↔
      dist2 e.position pos ≤ e.weapon_range ^ 2) ∧
    ((EnemyM.attack_player e p pos t).1.current_health < p.current_health ↔
      dist2 e.position pos ≤ e.weapon_range ^ 2) ∧
    (∀ arc : ℚ, EnemyM.attack_player { e with weapon_arc := arc } p pos t
        = EnemyM.attack_player e p pos t) ∧
    (∀ rad : ℚ,
      (EnemyM.attack_player e { p with radius := rad } pos t).2
          = (EnemyM.attack_player e p pos t).2 ∧
      (EnemyM.attack_player e { p with radius := rad } pos t).1.current_health
          = (EnemyM.attack_player e p pos t).1.current_health) := by
  have hcond : (sqrtLe (dist2 e.position pos) e.weapon_range = true) ↔
      dist2 e.position pos ≤ e.weapon_range ^ 2 := by
    simp [sqrtLe, hrange]
  have hnot : ¬ t - p.last_damage_time < p.damage_immunity_duration :=
    not_lt.mpr hwin
  refine ⟨?_, ?_, fun arc => by simp [EnemyM.attack_player],
    fun rad => by
      unfold EnemyM.attack_player PlayerM.take_damage
      constructor <;> split_ifs <;> rfl⟩
  · unfold EnemyM.attack_player
    rw [if_neg hw]
    by_cases hin : sqrtLe (dist2 e.position pos) e.weapon_range = true
    · rw [if_pos hin]
      simp [hcond.mp hin]
    · rw [if_neg hin]
      have hgt : ¬ dist2 e.position pos ≤ e.weapon_range ^ 2 := fun hc =>
        hin (hcond.mpr hc)
      simpa using not_le.mp hgt
  · unfold EnemyM.attack_player PlayerM.take_damage
    rw [if_neg hw, if_neg hnot]
    by_cases hin : sqrtLe (dist2 e.position pos) e.weapon_range = true
    · rw [if_pos hin]
      have hd : (0 : ℚ) < (pyInt ((e.damage : ℚ) * e.weapon_damage_multiplier) : ℚ) := by
        exact_mod_cast hdmg
      have hlt : max 0 (p.current_health
          - (pyInt ((e.damage : ℚ) * e.weapon_damage_multiplier) : ℚ))
          < p.current_health := by
        rcases le_or_lt (p.current_health
            - (pyInt ((e.damage : ℚ) * e.weapon_damage_multiplier) : ℚ)) 0 with hle | hpos
        · rw [max_eq_left hle]; exact hhp
        · rw [max_eq_right hpos.le]; linarith
      simpa [hcond.mp hin] using hlt
    · rw [if_neg hin]
      have hgt : ¬ dist2 e.position pos ≤ e.weapon_range ^ 2 := fun hc =>
        hin (hcond.mpr hc)
      simpa [lt_irrefl] using not_le.mp hgt

/-- Witness for C10: a sword enemy at the origin with range 45 and a
player 30 units away on the x-axis: the hit lands. -/
theorem C10_witness :
    (EnemyM.attack_player ⟨(0, 0), 15, "sword", 45, 90, 1⟩
        ⟨100, 100, 0, 1 / 2, 15⟩ (30, 0) 1).2 = true :=
  (C10_enemy_melee_hit ⟨(0, 0), 15, "sword", 45, 90, 1⟩
      ⟨100, 100, 0, 1 / 2, 15⟩ (30, 0) 1
      (by decide) (by norm_num) (by norm_num)
      (by norm_num [pyInt]) (by norm_num)).1.mpr
    (by norm_num [dist2])

/-- The code's angular normalization `min(d, 2π - d)` of `d = |t - a|`
agrees with the canonical angular distance (the absolute value of the
`(-π, π]`-representative of `t - a`) whenever `t - a ∈ (-2π, 2π)`. -/
theorem aux_min_angle_eq (d : ℝ) (hlo : -(2 * Real.pi) < d)
    (hhi : d < 2 * Real.pi) :
    min |d| (2 * Real.pi - |d|) = |Real.Angle.toReal (d : Real.Angle)| := by
  have hpi := Real.pi_pos
  by_cases h1 : -Real.pi < d ∧ d ≤ Real.pi
  · rw [Real.Angle.toReal_coe_eq_self_iff.mpr h1]
    have habs : |d| ≤ Real.pi := abs_le.mpr ⟨by linarith [h1.1], h1.2⟩
    exact min_eq_left (by linarith)
  · by_cases h2 : Real.pi < d
    · rw [Real.Angle.toReal_coe_eq_self_sub_two_pi_iff.mpr ⟨h2, by linarith⟩]
      rw [abs_of_pos (by linarith : (0:ℝ) < d),
        abs_of_neg (by linarith : d - 2 * Real.pi < 0)]
      rw [min_eq_right (by linarith)]
      ring
    · have hd : d ≤ -Real.pi := by
        by_contra hc
        push_neg at hc
        rcases le_or_lt d Real.pi with h | h
        · exact h1 ⟨hc, h⟩
        · exact h2 h
      rw [Real.Angle.toReal_coe_eq_self_add_two_pi_iff.mpr
        ⟨by linarith, hd⟩]
      rw [abs_of_neg (by linarith : d < 0),
        abs_of_nonneg (by linarith : (0:ℝ) ≤ d + 2 * Real.pi)]
      rw [min_eq_right (by linarith)]
      ring

/-- C1: the melee hit test accepts iff the centre distance is at most
`weapon_range + target_radius` AND the angular difference between the
attack direction and the direction to the target, normalized into
`[0, π]`, is at most `weapon_arc / 2` — for every attack direction in
atan2's range `(-π, π]`; and concretely, with `arc = 90°` and
`range = 40`, an attack at angle 0 hits a target at relative position
`(35, 0)` and misses one at `(-35, 0)`. -/
theorem C1_melee_hit_test :
    (∀ (o : Melee.MOwner) (tg : Melee.MTarget) (attack_angle : ℝ),
      -Real.pi < attack_angle → attack_angle ≤ Real.pi →
      (Melee.is_in_melee_range o tg attack_angle ↔
        Real.sqrt ((tg.position.1 - o.position.1) ^ 2
            + (tg.position.2 - o.position.2) ^ 2)
          ≤ o.melee_range * (o.range_multiplier.getD 1) + tg.radius ∧
        Melee.specAngleDiffLe
          (Complex.arg ⟨tg.position.1 - o.position.1,
            tg.position.2 - o.position.2⟩)
          attack_angle (o.melee_arc / 2))) ∧
    Melee.is_in_melee_range ⟨(0, 0), 40, Real.pi / 2, none⟩ ⟨(35, 0), 15⟩ 0 ∧
    ¬ Melee.is_in_melee_range ⟨(0, 0), 40, Real.pi / 2, none⟩ ⟨(-35, 0), 15⟩ 0 := by
  have hpi := Real.pi_pos
  refine ⟨?_, ?_, ?_⟩
  · intro o tg attack_angle ha1 ha2
    unfold Melee.is_in_melee_range Melee.specAngleDiffLe
    have harg := Complex.arg_mem_Ioc
      (⟨tg.position.1 - o.position.1, tg.position.2 - o.position.2⟩ : ℂ)
    rw [Set.mem_Ioc] at harg
    rw [not_lt]
    have hmin := aux_min_angle_eq
      (Complex.arg ⟨tg.position.1 - o.position.1, tg.position.2 - o.position.2⟩
        - attack_angle)
      (by linarith [harg.1]) (by linarith [harg.2])
    rw [hmin]
  · unfold Melee.is_in_melee_range
    have hc : (⟨(35 : ℝ) - 0, (0 : ℝ) - 0⟩ : ℂ) = ((35 : ℝ) : ℂ) := by
      rw [Complex.ofReal_def]
      norm_num
    have harg : Complex.arg ⟨(35 : ℝ) - 0, (0 : ℝ) - 0⟩ = 0 := by
      rw [hc]
      exact Complex.arg_ofReal_of_nonneg (by norm_num)
    have hs : Real.sqrt (((35 : ℝ) - 0) ^ 2 + ((0 : ℝ) - 0) ^ 2) = 35 := by
      rw [show ((35 : ℝ) - 0) ^ 2 + ((0 : ℝ) - 0) ^ 2 = 35 ^ 2 by norm_num]
      exact Real.sqrt_sq (by norm_num)
    refine ⟨?_, ?_⟩
    · rw [not_lt]
      simp only []
      rw [hs]
      norm_num
    · simp only []
      rw [harg]
      norm_num
      exact Or.inl (by positivity)
  · unfold Melee.is_in_melee_range
    have hc : (⟨(-35 : ℝ) - 0, (0 : ℝ) - 0⟩ : ℂ) = ((-35 : ℝ) : ℂ) := by
      rw [Complex.ofReal_def]
      norm_num
    have harg : Complex.arg ⟨(-35 : ℝ) - 0, (0 : ℝ) - 0⟩ = Real.pi := by
      rw [hc]
      exact Complex.arg_ofReal_of_neg (by norm_num)
    rintro ⟨-, hang⟩
    rw [harg] at hang
    norm_num at hang
    rw [abs_of_pos hpi] at hang
    rcases hang with h | h <;> linarith

/-- Witness for C1: the equivalence applied at the concrete hit
configuration (attack angle 0, range 40, arc 90°, target at `(35, 0)`),
with the angle-range hypotheses discharged. -/
theorem C1_witness :
    Melee.is_in_melee_range ⟨(0, 0), 40, Real.pi / 2, none⟩ ⟨(35, 0), 15⟩ 0 ↔
      (Real.sqrt (((35 : ℝ) - 0) ^ 2 + ((0 : ℝ) - 0) ^ 2)
          ≤ 40 * (Option.getD (none : Option ℝ) 1) + 15 ∧
        Melee.specAngleDiffLe
          (Complex.arg ⟨(35 : ℝ) - 0, (0 : ℝ) - 0⟩) 0 (Real.pi / 2 / 2)) :=
  C1_melee_hit_test.1 ⟨(0, 0), 40, Real.pi / 2, none⟩ ⟨(35, 0), 15⟩ 0
    (neg_lt_zero.mpr Real.pi_pos) Real.pi_pos.le

/-- C2 counterexample: a projectile travelling down-right whose
horizontal motion is blocked (the tile reached by moving only in x is a
wall, the tile reached by moving only in y is not — a "pure horizontal
block").  The claim requires the x velocity component to be flipped and
the position to revert to the last valid point `(28, 16)`; the code
instead flips the y component, keeps the x component, and leaves the
projectile at `(36, 16)` — a point that is itself inside the wall. -/
theorem C2_counterexample :
    Ricochet.is_wall ⟨4, 4, 32, fun tx ty => tx == 1 && ty == 0⟩ 36 18 = true ∧
    Ricochet.is_wall ⟨4, 4, 32, fun tx ty => tx == 1 && ty == 0⟩ 28 18 = false ∧
    Ricochet.is_wall ⟨4, 4, 32, fun tx ty => tx == 1 && ty == 0⟩ 36 16 = true ∧
    (Ricochet.update ⟨(28, 16), (8, 2), 20, 2, 2, 1, 0, 5⟩ 1
        ⟨4, 4, 32, fun tx ty => tx == 1 && ty == 0⟩).direction = (8, -2) ∧
    (8 : ℚ) ≠ -8 ∧
    (Ricochet.update ⟨(28, 16), (8, 2), 20, 2, 2, 1, 0, 5⟩ 1
        ⟨4, 4, 32, fun tx ty => tx == 1 && ty == 0⟩).position = (36, 16) ∧
    ((36 : ℚ), (16 : ℚ)) ≠ ((28 : ℚ), (16 : ℚ)) := by
  have hadv : Ricochet.advance ⟨(28, 16), (8, 2), 20, 2, 2, 1, 0, 5⟩ 1 = (36, 18) := by
    unfold Ricochet.advance
    norm_num
  have h36 : pyInt (36 : ℚ) = 36 := by norm_num [pyInt]
  have h18 : pyInt (18 : ℚ) = 18 := by norm_num [pyInt]
  have h28 : pyInt (28 : ℚ) = 28 := by norm_num [pyInt]
  have h16 : pyInt (16 : ℚ) = 16 := by norm_num [pyInt]
  have hupd : Ricochet.update ⟨(28, 16), (8, 2), 20, 2, 2, 1, 0, 5⟩ 1
      ⟨4, 4, 32, fun tx ty => tx == 1 && ty == 0⟩
      = { position := (36, 16), direction := (8, -2), damage := 18,
          max_ricochets := 2, ricochets_left := 1, speed := 1,
          lifetime := 1, max_lifetime := 5 } := by
    unfold Ricochet.update
    rw [hadv]
    norm_num [h36, h18, h28, h16, pyInt]
    decide
  refine ⟨by decide, by decide, by decide, ?_, by norm_num, ?_, by norm_num⟩
  · rw [hupd]
  · rw [hupd]

/-- C2 (amended): `RicochetProjectile.update` ricochets only on wall
contact with `ricochets_left > 0` (a projectile out of bounces passes
through walls unchanged except for motion and ageing); on a ricochet it
decrements `ricochets_left` by exactly 1 and truncates damage to
`int(damage * 0.9)`, and the axis rule is the code's: wall at
`(old_x, new_y)` ⇒ flip x and revert only x; else wall at
`(new_x, old_y)` ⇒ flip y and revert only y; else flip and revert both.
`should_remove` is exactly `lifetime ≥ max_lifetime ∨ ricochets_left <
0`, and `ricochets_left` never becomes negative, so the second disjunct
never fires. -/
theorem C2_ricochet_behavior (p : Ricochet.RProj) (dt : ℚ) (lv : Ricochet.WLevel) :
    ((Ricochet.is_wall lv (pyInt (Ricochet.advance p dt).1)
        (pyInt (Ricochet.advance p dt).2) = false ∨ p.ricochets_left ≤ 0) →
      Ricochet.update p dt lv
        = { p with lifetime := p.lifetime + dt,
                   position := Ricochet.advance p dt }) ∧
    (Ricochet.is_wall lv (pyInt (Ricochet.advance p dt).1)
        (pyInt (Ricochet.advance p dt).2) = true → 0 < p.ricochets_left →
      (Ricochet.update p dt lv).ricochets_left = p.ricochets_left - 1 ∧
      (Ricochet.update p dt lv).damage = pyInt ((p.damage : ℚ) * (9 / 10)) ∧
      (Ricochet.update p dt lv).lifetime = p.lifetime + dt ∧
      (Ricochet.is_wall lv (pyInt p.position.1)
          (pyInt (Ricochet.advance p dt).2) = true →
        (Ricochet.update p dt lv).direction = (-p.direction.1, p.direction.2) ∧
        (Ricochet.update p dt lv).position
          = (p.position.1, (Ricochet.advance p dt).2)) ∧
      (Ricochet.is_wall lv (pyInt p.position.1)
          (pyInt (Ricochet.advance p dt).2) = false →
       Ricochet.is_wall lv (pyInt (Ricochet.advance p dt).1)
          (pyInt p.position.2) = true →
        (Ricochet.update p dt lv).direction = (p.direction.1, -p.direction.2) ∧
        (Ricochet.update p dt lv).position
          = ((Ricochet.advance p dt).1, p.position.2)) ∧
      (Ricochet.is_wall lv (pyInt p.position.1)
          (pyInt (Ricochet.advance p dt).2) = false →
       Ricochet.is_wall lv (pyInt (Ricochet.advance p dt).1)
          (pyInt p.position.2) = false →
        (Ricochet.update p dt lv).direction
          = (-p.direction.1, -p.direction.2) ∧
        (Ricochet.update p dt lv).position = p.position)) ∧
    (Ricochet.should_remove p = true ↔
      (p.max_lifetime ≤ p.lifetime ∨ p.ricochets_left < 0)) ∧
    (0 ≤ p.ricochets_left → 0 ≤ (Ricochet.update p dt lv).ricochets_left) := by
  refine ⟨?_, ?_, ?_, ?_⟩
  · intro h
    simp only [Ricochet.update]
    rcases h with h | h
    · rw [h]
      simp
    · have : ¬ (0 < p.ricochets_left) := not_lt.mpr h
      simp [this]
  · intro hcontact hleft
    simp only [Ricochet.update]
    rw [hcontact]
    simp only [Bool.true_and, decide_eq_true_eq, if_pos hleft]
    by_cases h1 : Ricochet.is_wall lv (pyInt p.position.1)
        (pyInt (Ricochet.advance p dt).2) = true
    · rw [if_pos h1]
      refine ⟨by trivial, by trivial, by trivial, fun _ => ⟨by trivial, by trivial⟩, fun hn _ => ?_, fun hn _ => ?_⟩
      · rw [h1] at hn
        cases hn
      · rw [h1] at hn
        cases hn
    · rw [if_neg h1]
      have h1' : Ricochet.is_wall lv (pyInt p.position.1)
          (pyInt (Ricochet.advance p dt).2) = false := by
        simpa using h1
      by_cases h2 : Ricochet.is_wall lv (pyInt (Ricochet.advance p dt).1)
          (pyInt p.position.2) = true
      · rw [if_pos h2]
        refine ⟨by trivial, by trivial, by trivial, fun hw => ?_,
          fun _ _ => ⟨by trivial, by trivial⟩, fun _ hw => ?_⟩
        · rw [hw] at h1'
          cases h1'
        · rw [hw] at h2
          cases h2
      · rw [if_neg h2]
        refine ⟨by trivial, by trivial, by trivial, fun hw => ?_, fun _ hw => ?_,
          fun _ _ => ⟨by trivial, by trivial⟩⟩
        · rw [hw] at h1'
          cases h1'
        · exact absurd hw h2
  · unfold Ricochet.should_remove
    simp
  · intro h0
    simp only [Ricochet.update]
    split_ifs with h h1 h2
    · simp only [Bool.and_eq_true, decide_eq_true_eq] at h
      show (0 : ℤ) ≤ p.ricochets_left - 1
      omega
    · simp only [Bool.and_eq_true, decide_eq_true_eq] at h
      show (0 : ℤ) ≤ p.ricochets_left - 1
      omega
    · simp only [Bool.and_eq_true, decide_eq_true_eq] at h
      show (0 : ℤ) ≤ p.ricochets_left - 1
      omega
    · exact h0

/-- Witness for C2 at the counterexample configuration: the bounce
consumes exactly one ricochet and truncates the damage from 20 to 18. -/
theorem C2_witness :
    (Ricochet.update ⟨(28, 16), (8, 2), 20, 2, 2, 1, 0, 5⟩ 1
        ⟨4, 4, 32, fun tx ty => tx == 1 && ty == 0⟩).ricochets_left = 2 - 1 ∧
    (Ricochet.update ⟨(28, 16), (8, 2), 20, 2, 2, 1, 0, 5⟩ 1
        ⟨4, 4, 32, fun tx ty => tx == 1 && ty == 0⟩).damage
      = pyInt ((20 : ℚ) * (9 / 10)) := by
  have h := (C2_ricochet_behavior ⟨(28, 16), (8, 2), 20, 2, 2, 1, 0, 5⟩ 1
      ⟨4, 4, 32, fun tx ty => tx == 1 && ty == 0⟩).2.1 ?_ (by norm_num)
  · exact ⟨h.1, h.2.1⟩
  · have hadv : Ricochet.advance ⟨(28, 16), (8, 2), 20, 2, 2, 1, 0, 5⟩ 1
        = (36, 18) := by
      unfold Ricochet.advance
      norm_num
    rw [hadv]
    norm_num [pyInt]
    decide

/-- C3 counterexample: a projectile whose lifetime expires on the same
tick in which it lands on a living enemy.  The claim's priority order
(wall → enemy/boss → lifetime) would remove it by an enemy hit and apply
damage (as `specProjectileTick` does); the code removes it by lifetime
expiry first and the enemy's health is untouched. -/
theorem C3_counterexample :
    (ProjM.projectileTick ⟨(0, 0), (10, 0), 5, 5/2, 3, 3, false⟩ 1
        (fun _ _ => false) [⟨(10, 0), 12, 50, false, false⟩] none).1
      = ProjM.Cause.expired ∧
    (ProjM.projectileTick ⟨(0, 0), (10, 0), 5, 5/2, 3, 3, false⟩ 1
        (fun _ _ => false) [⟨(10, 0), 12, 50, false, false⟩] none).2.2.1
      = [⟨(10, 0), 12, 50, false, false⟩] ∧
    (ProjM.specProjectileTick ⟨(0, 0), (10, 0), 5, 5/2, 3, 3, false⟩ 1
        (fun _ _ => false) [⟨(10, 0), 12, 50, false, false⟩] none).1
      = ProjM.Cause.enemyHit 0 ∧
    (ProjM.specProjectileTick ⟨(0, 0), (10, 0), 5, 5/2, 3, 3, false⟩ 1
        (fun _ _ => false) [⟨(10, 0), 12, 50, false, false⟩] none).2.2.1
      = [⟨(10, 0), 12, 45, false, false⟩] ∧
    ProjM.Cause.expired ≠ ProjM.Cause.enemyHit 0 := by
  have hupd : ProjM.Proj.update ⟨(0, 0), (10, 0), 5, 5/2, 3, 3, false⟩ 1
      = (⟨(10, 0), (10, 0), 5, 7/2, 3, 3, false⟩, false) := by
    unfold ProjM.Proj.update
    norm_num
  have hcoll : ProjM.Proj.check_collision ⟨(10, 0), (10, 0), 5, 7/2, 3, 3, false⟩
      (10, 0) 12 = true := by
    unfold ProjM.Proj.check_collision
    norm_num [sqrtLe, dist2]
  have halive : ProjM.CEnemy.is_alive ⟨(10, 0), 12, 50, false, false⟩ = true := by
    unfold ProjM.CEnemy.is_alive
    norm_num
  have hfind : List.findIdx? (fun e : ProjM.CEnemy =>
        e.is_alive && ProjM.Proj.check_collision
          ⟨(10, 0), (10, 0), 5, 7/2, 3, 3, false⟩ e.position e.radius)
      [⟨(10, 0), 12, 50, false, false⟩] = some 0 := by
    simp [List.findIdx?, halive, hcoll]
  have htd : ProjM.hitEnemy ⟨(10, 0), (10, 0), 5, 7/2, 3, 3, false⟩
      ⟨(10, 0), 12, 50, false, false⟩ = ⟨(10, 0), 12, 45, false, false⟩ := by
    unfold ProjM.hitEnemy ProjM.CEnemy.take_damage
    norm_num
  refine ⟨?_, ?_, ?_, ?_, by decide⟩ <;>
    · simp only [ProjM.projectileTick, ProjM.specProjectileTick, hupd, hfind, htd]
      simp [List.modify, htd]

/-- Branch lemma: lifetime expiry wins immediately. -/
theorem aux_tick_expired (p : ProjM.Proj) (dt : ℚ)
    (wallCheck : ℚ × ℚ → ℚ → Bool) (es : List ProjM.CEnemy)
    (boss : Option ProjM.CEnemy) (h : (p.update dt).2 = false) :
    ProjM.projectileTick p dt wallCheck es boss
      = (ProjM.Cause.expired, (p.update dt).1, es, boss) := by
  unfold ProjM.projectileTick
  rcases hu : p.update dt with ⟨p', keep⟩
  rw [hu] at h
  cases keep
  · rfl
  · cases h

/-- Branch lemma: wall collision, tested second. -/
theorem aux_tick_wall (p : ProjM.Proj) (dt : ℚ)
    (wallCheck : ℚ × ℚ → ℚ → Bool) (es : List ProjM.CEnemy)
    (boss : Option ProjM.CEnemy) (h : (p.update dt).2 = true)
    (hw : wallCheck (p.update dt).1.position (p.update dt).1.radius = true) :
    ProjM.projectileTick p dt wallCheck es boss
      = (ProjM.Cause.wall, (p.update dt).1, es, boss) := by
  unfold ProjM.projectileTick
  rcases hu : p.update dt with ⟨p', keep⟩
  rw [hu] at h hw
  cases keep
  · cases h
  · simp only [Bool.not_true, Bool.false_eq_true, if_false]
    rw [if_pos hw]

/-- Branch lemma: first living colliding enemy, tested third. -/
theorem aux_tick_enemy (p : ProjM.Proj) (dt : ℚ)
    (wallCheck : ℚ × ℚ → ℚ → Bool) (es : List ProjM.CEnemy)
    (boss : Option ProjM.CEnemy) (i : ℕ) (h : (p.update dt).2 = true)
    (hw : wallCheck (p.update dt).1.position (p.update dt).1.radius = false)
    (hf : es.findIdx? (fun e => e.is_alive
        && (p.update dt).1.check_collision e.position e.radius) = some i) :
    ProjM.projectileTick p dt wallCheck es boss
      = (ProjM.Cause.enemyHit i, (p.update dt).1,
         es.modify (ProjM.hitEnemy (p.update dt).1) i, boss) := by
  unfold ProjM.projectileTick
  rcases hu : p.update dt with ⟨p', keep⟩
  rw [hu] at h hw hf
  cases keep
  · cases h
  · simp only [Bool.not_true, Bool.false_eq_true, if_false]
    rw [if_neg (by rw [hw]; exact Bool.false_ne_true)]
    simp only [hf]

/-- Branch lemma: boss hit, tested last among collisions. -/
theorem aux_tick_boss (p : ProjM.Proj) (dt : ℚ)
    (wallCheck : ℚ × ℚ → ℚ → Bool) (es : List ProjM.CEnemy)
    (b : ProjM.CEnemy) (h : (p.update dt).2 = true)
    (hw : wallCheck (p.update dt).1.position (p.update dt).1.radius = false)
    (hf : es.findIdx? (fun e => e.is_alive
        && (p.update dt).1.check_collision e.position e.radius) = none)
    (hb : (b.is_alive && (p.update dt).1.check_collision b.position b.radius)
        = true) :
    ProjM.projectileTick p dt wallCheck es (some b)
      = (ProjM.Cause.bossHit, (p.update dt).1, es,
         some (b.take_damage (p.update dt).1.damage)) := by
  unfold ProjM.projectileTick
  rcases hu : p.update dt with ⟨p', keep⟩
  rw [hu] at h hw hf hb
  cases keep
  · cases h
  · simp only [Bool.not_true, Bool.false_eq_true, if_false]
    rw [if_neg (by rw [hw]; exact Bool.false_ne_true)]
    simp only [hf]
    rw [if_pos hb]

/-- Branch lemma: nothing hit, the projectile is kept. -/
theorem aux_tick_kept (p : ProjM.Proj) (dt : ℚ)
    (wallCheck : ℚ × ℚ → ℚ → Bool) (es : List ProjM.CEnemy)
    (boss : Option ProjM.CEnemy) (h : (p.update dt).2 = true)
    (hw : wallCheck (p.update dt).1.position (p.update dt).1.radius = false)
    (hf : es.findIdx? (fun e => e.is_alive
        && (p.update dt).1.check_collision e.position e.radius) = none)
    (hb : ∀ b, boss = some b →
      (b.is_alive && (p.update dt).1.check_collision b.position b.radius)
        = false) :
    ProjM.projectileTick p dt wallCheck es boss
      = (ProjM.Cause.kept, (p.update dt).1, es, boss) := by
  unfold ProjM.projectileTick
  rcases hu : p.update dt with ⟨p', keep⟩
  rw [hu] at h hw hf
  cases keep
  · cases h
  · simp only [Bool.not_true, Bool.false_eq_true, if_false]
    rw [if_neg (by rw [hw]; exact Bool.false_ne_true)]
    simp only [hf]
    rcases boss with _ | b
    · rfl
    · have hbb := hb b rfl
      rw [hu] at hbb
      simp only [] at hbb
      simp [hbb]

/-- C3 (amended): each tick a projectile first advances by
`velocity · dt` and ages by `dt`; it is then removed by exactly one
cause, with the removal tests short-circuited in the code's order —
lifetime expiry FIRST, then wall collision, then the first living
colliding enemy (applying the hit to that enemy alone), then the living
boss (applying damage); otherwise it is kept and nothing else changes. -/
theorem C3_projectile_tick (p : ProjM.Proj) (dt : ℚ)
    (wallCheck : ℚ × ℚ → ℚ → Bool) (es : List ProjM.CEnemy)
    (boss : Option ProjM.CEnemy) :
    ((ProjM.projectileTick p dt wallCheck es boss).2.1 = (p.update dt).1) ∧
    (p.lifetime ≤ p.age + dt →
      ProjM.projectileTick p dt wallCheck es boss
        = (ProjM.Cause.expired, (p.update dt).1, es, boss)) ∧
    (p.age + dt < p.lifetime →
      wallCheck (p.update dt).1.position (p.update dt).1.radius = true →
      ProjM.projectileTick p dt wallCheck es boss
        = (ProjM.Cause.wall, (p.update dt).1, es, boss)) ∧
    (p.age + dt < p.lifetime →
      wallCheck (p.update dt).1.position (p.update dt).1.radius = false →
      (∀ i, es.findIdx? (fun e => e.is_alive
            && (p.update dt).1.check_collision e.position e.radius) = some i →
        ProjM.projectileTick p dt wallCheck es boss
          = (ProjM.Cause.enemyHit i, (p.update dt).1,
             es.modify (ProjM.hitEnemy (p.update dt).1) i, boss)) ∧
      (es.findIdx? (fun e => e.is_alive
            && (p.update dt).1.check_collision e.position e.radius) = none →
        (∀ b, boss = some b →
          (b.is_alive && (p.update dt).1.check_collision b.position b.radius)
              = true →
          ProjM.projectileTick p dt wallCheck es boss
            = (ProjM.Cause.bossHit, (p.update dt).1, es,
               some (b.take_damage (p.update dt).1.damage))) ∧
        ((∀ b, boss = some b →
          (b.is_alive && (p.update dt).1.check_collision b.position b.radius)
              = false) →
          ProjM.projectileTick p dt wallCheck es boss
            = (ProjM.Cause.kept, (p.update dt).1, es, boss)))) := by
  have hage : ((p.update dt).2 = true) ↔ p.age + dt < p.lifetime := by
    unfold ProjM.Proj.update
    simp
  refine ⟨?_, ?_, ?_, ?_⟩
  · rcases hk : (p.update dt).2 with _ | _
    · rw [aux_tick_expired p dt wallCheck es boss hk]
    · by_cases hw : wallCheck (p.update dt).1.position (p.update dt).1.radius
          = true
      · rw [aux_tick_wall p dt wallCheck es boss hk hw]
      · have hw' : wallCheck (p.update dt).1.position (p.update dt).1.radius
            = false := by simpa using hw
        rcases hf : es.findIdx? (fun e => e.is_alive
            && (p.update dt).1.check_collision e.position e.radius) with _ | i
        · rcases hbs : boss with _ | b
          · rw [aux_tick_kept p dt wallCheck es none hk hw' hf (by intro b hb; cases hb)]
          · by_cases hb : (b.is_alive
                && (p.update dt).1.check_collision b.position b.radius) = true
            · rw [aux_tick_boss p dt wallCheck es b hk hw' hf hb]
            · rw [aux_tick_kept p dt wallCheck es (some b) hk hw' hf ?_]
              intro b' hb'
              cases hb'
              simpa using hb
        · rw [aux_tick_enemy p dt wallCheck es boss i hk hw' hf]
  · intro hexp
    exact aux_tick_expired p dt wallCheck es boss
      (by rcases hk : (p.update dt).2 with _ | _
          · rfl
          · exact absurd (hage.mp hk) (not_lt.mpr hexp))
  · intro hlt hw
    exact aux_tick_wall p dt wallCheck es boss (hage.mpr hlt) hw
  · intro hlt hw
    refine ⟨fun i hf => aux_tick_enemy p dt wallCheck es boss i
        (hage.mpr hlt) hw hf, fun hf => ⟨fun b hb hcoll => ?_, fun hb => ?_⟩⟩
    · rw [hb]
      exact aux_tick_boss p dt wallCheck es b (hage.mpr hlt) hw hf hcoll
    · exact aux_tick_kept p dt wallCheck es boss (hage.mpr hlt) hw hf hb

/-- Witness for C3 at the counterexample configuration: the
simultaneous expiry-and-enemy-overlap tick is resolved as `expired`. -/
theorem C3_witness :
    ProjM.projectileTick ⟨(0, 0), (10, 0), 5, 5/2, 3, 3, false⟩ 1
        (fun _ _ => false) [⟨(10, 0), 12, 50, false, false⟩] none
      = (ProjM.Cause.expired,
         (ProjM.Proj.update ⟨(0, 0), (10, 0), 5, 5/2, 3, 3, false⟩ 1).1,
         [⟨(10, 0), 12, 50, false, false⟩], none) :=
  (C3_projectile_tick ⟨(0, 0), (10, 0), 5, 5/2, 3, 3, false⟩ 1
      (fun _ _ => false) [⟨(10, 0), 12, 50, false, false⟩] none).2.1
    (by norm_num)

/-- C4 counterexample: a knockback of 70 pixels through a one-tile wall.
The target starts at `(40, 16)` (tile 1), the wall occupies tile 2
(x ∈ [64, 96)), and the full displacement lands at `(110, 16)` (tile 3,
floor) — so the destination-tile check accepts it and the target crosses
the intervening wall: the point `(75, 16)` on the straight path lies
inside the wall tile. -/
theorem C4_counterexample :
    Knockback.apply_knockback ⟨4, 1, 32, fun tx ty => tx == 2 && ty == 0⟩
        (40, 16) 1 0 70 = (110, 16) ∧
    Knockback.validPos ⟨4, 1, 32, fun tx ty => tx == 2 && ty == 0⟩ 40 16
      = true ∧
    (fun tx ty => tx == 2 && ty == 0 : ℤ → ℤ → Bool) ⌊(75 : ℚ) / 32⌋ ⌊(16 : ℚ) / 32⌋
      = true ∧
    (40 : ℚ) < 75 ∧ (75 : ℚ) < 110 := by
  have hv110 : Knockback.validPos ⟨4, 1, 32, fun tx ty => tx == 2 && ty == 0⟩
      110 16 = true := by
    unfold Knockback.validPos
    norm_num
  have h40 : (40 : ℚ) + 1 * 70 = 110 := by norm_num
  have h16 : (16 : ℚ) + 0 * 70 = 16 := by norm_num
  refine ⟨?_, ?_, ?_, by norm_num, by norm_num⟩
  · unfold Knockback.apply_knockback
    rw [if_neg (by norm_num)]
    simp only [h40, h16]
    rw [if_pos hv110]
  · unfold Knockback.validPos
    norm_num
  · norm_num

/-- C4 (amended): `apply_knockback` with positive distance displaces the
target along the attack direction `(c, s)` by the full distance when the
destination's TILE (a point test on the displaced centre, not a path or
circle test) is in bounds and not a wall; otherwise it tries the
fractions 1/2, 1/4, 1/10 of the displacement in that order, taking the
first whose destination tile is acceptable, and stays in place when none
is.  Intervening wall tiles along the path are never examined (the
counterexample shows the target can cross them). -/
theorem C4_knockback_behavior (lv : Knockback.KLevel) (pos : ℚ × ℚ)
    (c s kd : ℚ) (hkd : 0 < kd) :
    (Knockback.validPos lv (pos.1 + c * kd) (pos.2 + s * kd) = true →
      Knockback.apply_knockback lv pos c s kd
        = (pos.1 + c * kd, pos.2 + s * kd)) ∧
    (Knockback.validPos lv (pos.1 + c * kd) (pos.2 + s * kd) = false →
      Knockback.validPos lv (pos.1 + c * kd * (1/2)) (pos.2 + s * kd * (1/2))
          = true →
      Knockback.apply_knockback lv pos c s kd
        = (pos.1 + c * kd * (1/2), pos.2 + s * kd * (1/2))) ∧
    (Knockback.validPos lv (pos.1 + c * kd) (pos.2 + s * kd) = false →
      Knockback.validPos lv (pos.1 + c * kd * (1/2)) (pos.2 + s * kd * (1/2))
          = false →
      Knockback.validPos lv (pos.1 + c * kd * (1/4)) (pos.2 + s * kd * (1/4))
          = true →
      Knockback.apply_knockback lv pos c s kd
        = (pos.1 + c * kd * (1/4), pos.2 + s * kd * (1/4))) ∧
    (Knockback.validPos lv (pos.1 + c * kd) (pos.2 + s * kd) = false →
      Knockback.validPos lv (pos.1 + c * kd * (1/2)) (pos.2 + s * kd * (1/2))
          = false →
      Knockback.validPos lv (pos.1 + c * kd * (1/4)) (pos.2 + s * kd * (1/4))
          = false →
      Knockback.validPos lv (pos.1 + c * kd * (1/10)) (pos.2 + s * kd * (1/10))
          = true →
      Knockback.apply_knockback lv pos c s kd
        = (pos.1 + c * kd * (1/10), pos.2 + s * kd * (1/10))) ∧
    (Knockback.validPos lv (pos.1 + c * kd) (pos.2 + s * kd) = false →
      Knockback.validPos lv (pos.1 + c * kd * (1/2)) (pos.2 + s * kd * (1/2))
          = false →
      Knockback.validPos lv (pos.1 + c * kd * (1/4)) (pos.2 + s * kd * (1/4))
          = false →
      Knockback.validPos lv (pos.1 + c * kd * (1/10)) (pos.2 + s * kd * (1/10))
          = false →
      Knockback.apply_knockback lv pos c s kd = pos) := by
  have hne : ¬ kd ≤ 0 := not_le.mpr hkd
  unfold Knockback.apply_knockback
  simp only [Knockback.tryFractions]
  rw [if_neg hne]
  refine ⟨fun h1 => ?_, fun h1 h2 => ?_, fun h1 h2 h3 => ?_,
    fun h1 h2 h3 h4 => ?_, fun h1 h2 h3 h4 => ?_⟩
  · rw [if_pos h1]
  · rw [if_neg (by rw [h1]; exact Bool.false_ne_true), if_pos h2]
  · rw [if_neg (by rw [h1]; exact Bool.false_ne_true),
      if_neg (by rw [h2]; exact Bool.false_ne_true), if_pos h3]
  · rw [if_neg (by rw [h1]; exact Bool.false_ne_true),
      if_neg (by rw [h2]; exact Bool.false_ne_true),
      if_neg (by rw [h3]; exact Bool.false_ne_true), if_pos h4]
  · rw [if_neg (by rw [h1]; exact Bool.false_ne_true),
      if_neg (by rw [h2]; exact Bool.false_ne_true),
      if_neg (by rw [h3]; exact Bool.false_ne_true),
      if_neg (by rw [h4]; exact Bool.false_ne_true)]

/-- Witness for C4: the counterexample's inputs through the amended
theorem's full-displacement branch. -/
theorem C4_witness :
    Knockback.apply_knockback ⟨4, 1, 32, fun tx ty => tx == 2 && ty == 0⟩
        (40, 16) 1 0 70 = ((40 : ℚ) + 1 * 70, (16 : ℚ) + 0 * 70) :=
  (C4_knockback_behavior ⟨4, 1, 32, fun tx ty => tx == 2 && ty == 0⟩
      (40, 16) 1 0 70 (by norm_num)).1
    (by unfold Knockback.validPos; norm_num)

/-- A `foldl` preserves any invariant its step preserves. -/
theorem aux_foldl_preserve {α β : Type} (P : β → Prop) (f : β → α → β)
    (hf : ∀ b a, P b → P (f b a)) :
    ∀ (l : List α) (b : β), P b → P (l.foldl f b)
  | [], _, hb => hb
  | a :: l, b, hb => aux_foldl_preserve P f hf l (f b a) (hf b a hb)

/-- Writing: `setFloor` puts a floor tile at its own coordinates when they are
inside the grid. -/
theorem aux_tileAt_setFloor_self (g : LevelGen.Grid) (x y : ℕ)
    (row : List LevelGen.TileKind) (hrow : g[y]? = some row)
    (hx : x < row.length) :
    LevelGen.tileAt (LevelGen.setFloor g x y) x y = LevelGen.TileKind.floor := by
  unfold LevelGen.tileAt LevelGen.setFloor
  rw [List.getElem?_modify_eq, hrow]
  simp [List.getElem?_set_self hx]

/-- Monotonicity: `setFloor` never turns a floor tile into anything else. -/
theorem aux_tileAt_setFloor_mono (g : LevelGen.Grid) (x y x' y' : ℕ)
    (h : LevelGen.tileAt g x' y' = LevelGen.TileKind.floor) :
    LevelGen.tileAt (LevelGen.setFloor g x y) x' y'
      = LevelGen.TileKind.floor := by
  unfold LevelGen.tileAt at h ⊢
  unfold LevelGen.setFloor
  by_cases hy : y = y'
  · subst hy
    rw [List.getElem?_modify_eq]
    rcases hrow : g[y]? with _ | row
    · rw [hrow] at h
      simp at h
    · rw [hrow] at h
      simp only [Option.map_some', Option.some_bind] at h
      show ((row.set x LevelGen.TileKind.floor)[x']?).getD LevelGen.TileKind.wall
        = LevelGen.TileKind.floor
      rw [List.getElem?_set]
      by_cases hx : x = x'
      · subst hx
        rcases hx' : row[x]? with _ | t
        · rw [hx'] at h
          simp at h
        · have hlen : x < row.length := by
            by_contra hc
            rw [List.getElem?_eq_none (not_lt.mp hc)] at hx'
            cases hx'
          simp [hlen]
      · simp only [if_neg hx]
        exact h
  · rw [List.getElem?_modify_ne _ g hy]
    exact h

/-- Shape: `setFloor` keeps the grid's dimensions. -/
theorem aux_shape_setFloor (g : LevelGen.Grid) (w h x y : ℕ)
    (hs : LevelGen.gridShape g w h) :
    LevelGen.gridShape (LevelGen.setFloor g x y) w h := by
  obtain ⟨hl, hrows⟩ := hs
  constructor
  · rw [LevelGen.setFloor, List.length_modify]
    exact hl
  · intro row hrow
    rw [LevelGen.setFloor] at hrow
    rw [List.mem_iff_getElem?] at hrow
    obtain ⟨i, hi⟩ := hrow
    rw [List.getElem?_modify] at hi
    rcases hg : g[i]? with _ | orig
    · rw [hg] at hi
      cases hi
    · rw [hg] at hi
      have horig : orig ∈ g := List.getElem?_mem hg
      by_cases hiy : y = i
      · simp [hiy] at hi
        rw [← hi, List.length_set]
        exact hrows orig horig
      · simp [hiy] at hi
        rw [← hi]
        exact hrows orig horig

/-- A shaped grid has a full-width row under every in-range index. -/
theorem aux_shape_row (g : LevelGen.Grid) (w h y : ℕ)
    (hs : LevelGen.gridShape g w h) (hy : y < h) :
    ∃ row, g[y]? = some row ∧ row.length = w := by
  obtain ⟨hl, hrows⟩ := hs
  have hy' : y < g.length := by rw [hl]; exact hy
  refine ⟨g[y], by simp [List.getElem?_eq_getElem hy'], ?_⟩
  exact hrows g[y] (g.getElem_mem hy')

/-- Carving a room never erases a floor tile. -/
theorem aux_carve_room_mono (w h : ℕ) (g : LevelGen.Grid)
    (x y wd ht x' y' : ℕ)
    (hf : LevelGen.tileAt g x' y' = LevelGen.TileKind.floor) :
    LevelGen.tileAt (LevelGen.carve_room w h g x y wd ht) x' y'
      = LevelGen.TileKind.floor := by
  unfold LevelGen.carve_room
  refine aux_foldl_preserve
    (fun g => LevelGen.tileAt g x' y' = LevelGen.TileKind.floor) _ ?_ _ g hf
  intro b ry hb
  refine aux_foldl_preserve
    (fun g => LevelGen.tileAt g x' y' = LevelGen.TileKind.floor) _ ?_ _ b hb
  intro b2 rx hb2
  by_cases hc : x + rx < w ∧ y + ry < h
  · rw [if_pos hc]
    exact aux_tileAt_setFloor_mono _ _ _ _ _ hb2
  · rw [if_neg hc]
    exact hb2

/-- Carving a room keeps the grid's dimensions. -/
theorem aux_shape_carve_room (w h : ℕ) (g : LevelGen.Grid) (x y wd ht : ℕ)
    (hs : LevelGen.gridShape g w h) :
    LevelGen.gridShape (LevelGen.carve_room w h g x y wd ht) w h := by
  unfold LevelGen.carve_room
  refine aux_foldl_preserve (fun g => LevelGen.gridShape g w h) _ ?_ _ g hs
  intro b ry hb
  refine aux_foldl_preserve (fun g => LevelGen.gridShape g w h) _ ?_ _ b hb
  intro b2 rx hb2
  by_cases hc : x + rx < w ∧ y + ry < h
  · rw [if_pos hc]
    exact aux_shape_setFloor _ _ _ _ _ hb2
  · rw [if_neg hc]
    exact hb2

/-- One row pass of `carve_room` sets every in-bounds cell of that row
to floor. -/
theorem aux_carve_inner_sets (w h : ℕ) (x y ry : ℕ) :
    ∀ (wd : ℕ) (g : LevelGen.Grid), LevelGen.gridShape g w h → ∀ i < wd,
    x + i < w → y + ry < h →
    LevelGen.tileAt ((List.range wd).foldl
        (fun g rx =>
          if x + rx < w ∧ y + ry < h then LevelGen.setFloor g (x + rx) (y + ry)
          else g) g)
      (x + i) (y + ry) = LevelGen.TileKind.floor := by
  intro wd
  induction wd with
  | zero => intro g _ i hi; cases hi
  | succ n ih =>
    intro g hs i hi hxw hyh
    rw [List.range_succ, List.foldl_append, List.foldl_cons, List.foldl_nil]
    have hshape' : LevelGen.gridShape ((List.range n).foldl
        (fun g rx =>
          if x + rx < w ∧ y + ry < h then LevelGen.setFloor g (x + rx) (y + ry)
          else g) g) w h := by
      refine aux_foldl_preserve (fun g => LevelGen.gridShape g w h) _ ?_ _ g hs
      intro b rx hb
      by_cases hc : x + rx < w ∧ y + ry < h
      · rw [if_pos hc]
        exact aux_shape_setFloor _ _ _ _ _ hb
      · rw [if_neg hc]
        exact hb
    rcases Nat.lt_succ_iff_lt_or_eq.mp hi with hlt | heq
    · have hfl := ih g hs i hlt hxw hyh
      by_cases hc : x + n < w ∧ y + ry < h
      · rw [if_pos hc]
        exact aux_tileAt_setFloor_mono _ _ _ _ _ hfl
      · rw [if_neg hc]
        exact hfl
    · subst heq
      rw [if_pos ⟨hxw, hyh⟩]
      obtain ⟨row, hrow, hlen⟩ := aux_shape_row _ w h (y + ry) hshape' hyh
      exact aux_tileAt_setFloor_self _ _ _ row hrow (by rw [hlen]; exact hxw)

/-- Coverage: `carve_room` sets every in-bounds cell of the room to floor. -/
theorem aux_carve_room_sets (w h : ℕ) (x y wd : ℕ) :
    ∀ (ht : ℕ) (g : LevelGen.Grid), LevelGen.gridShape g w h →
    ∀ i j, i < wd → j < ht → x + i < w → y + j < h →
    LevelGen.tileAt (LevelGen.carve_room w h g x y wd ht) (x + i) (y + j)
      = LevelGen.TileKind.floor := by
  intro ht
  induction ht with
  | zero => intro g _ i j _ hj; cases hj
  | succ n ih =>
    intro g hs i j hi hj hxw hyh
    have hstep : LevelGen.carve_room w h g x y wd (n + 1)
        = (List.range wd).foldl
            (fun g rx =>
              if x + rx < w ∧ y + n < h then LevelGen.setFloor g (x + rx) (y + n)
              else g)
            (LevelGen.carve_room w h g x y wd n) := by
      unfold LevelGen.carve_room
      rw [List.range_succ, List.foldl_append, List.foldl_cons, List.foldl_nil]
    rw [hstep]
    rcases Nat.lt_succ_iff_lt_or_eq.mp hj with hlt | heq
    · have hfl := ih g hs i j hi hlt hxw hyh
      refine aux_foldl_preserve
        (fun g => LevelGen.tileAt g (x + i) (y + j) = LevelGen.TileKind.floor)
        _ ?_ _ _ hfl
      intro b rx hb
      by_cases hc : x + rx < w ∧ y + n < h
      · rw [if_pos hc]
        exact aux_tileAt_setFloor_mono _ _ _ _ _ hb
      · rw [if_neg hc]
        exact hb
    · subst heq
      exact aux_carve_inner_sets w h x y j wd
        (LevelGen.carve_room w h g x y wd j)
        (aux_shape_carve_room w h g x y wd j hs) i hi hxw hyh

/-- Carving a corridor never erases a floor tile. -/
theorem aux_carve_corridor_mono (w h : ℕ) (g : LevelGen.Grid)
    (x1 y1 x2 y2 x' y' : ℕ)
    (hf : LevelGen.tileAt g x' y' = LevelGen.TileKind.floor) :
    LevelGen.tileAt (LevelGen.carve_corridor w h g x1 y1 x2 y2) x' y'
      = LevelGen.TileKind.floor := by
  unfold LevelGen.carve_corridor
  split_ifs
  · refine aux_foldl_preserve
      (fun g => LevelGen.tileAt g x' y' = LevelGen.TileKind.floor) _ ?_ _ g hf
    intro b i hb
    split_ifs
    · exact aux_tileAt_setFloor_mono _ _ _ _ _ hb
    · exact hb
  · refine aux_foldl_preserve
      (fun g => LevelGen.tileAt g x' y' = LevelGen.TileKind.floor) _ ?_ _ g hf
    intro b i hb
    split_ifs
    · exact aux_tileAt_setFloor_mono _ _ _ _ _ hb
    · exact hb

/-- Connecting rooms never erases a floor tile. -/
theorem aux_connect_mono (w h : ℕ) (g : LevelGen.Grid)
    (rooms : List LevelGen.Room) (s : LevelGen.RNG) (x' y' : ℕ)
    (hf : LevelGen.tileAt g x' y' = LevelGen.TileKind.floor) :
    LevelGen.tileAt (LevelGen.connect_rooms w h g rooms s).1 x' y'
      = LevelGen.TileKind.floor := by
  unfold LevelGen.connect_rooms
  refine aux_foldl_preserve
    (fun st : LevelGen.Grid × LevelGen.RNG =>
      LevelGen.tileAt st.1 x' y' = LevelGen.TileKind.floor)
    _ ?_ (rooms.zip rooms.tail) (g, s) hf
  rintro ⟨g0, s0⟩ ⟨r1, r2⟩ hb
  dsimp only [LevelGen.randBool]
  split_ifs
  · exact aux_carve_corridor_mono _ _ _ _ _ _ _ _ _
      (aux_carve_corridor_mono _ _ _ _ _ _ _ _ _ hb)
  · exact aux_carve_corridor_mono _ _ _ _ _ _ _ _ _
      (aux_carve_corridor_mono _ _ _ _ _ _ _ _ _ hb)

/-- The room-sampling loop never erases a floor tile. -/
theorem aux_roomsGo_mono (w h mn mx : ℕ) (x' y' : ℕ) :
    ∀ (fuel : ℕ) (rooms : List LevelGen.Room) (g : LevelGen.Grid)
      (s : LevelGen.RNG),
    LevelGen.tileAt g x' y' = LevelGen.TileKind.floor →
    LevelGen.tileAt (LevelGen.roomsGo w h mn mx fuel (rooms, g, s)).2.1 x' y'
      = LevelGen.TileKind.floor := by
  intro fuel
  induction fuel with
  | zero => intro rooms g s hf; exact hf
  | succ n ih =>
    intro rooms g s hf
    simp only [LevelGen.roomsGo, LevelGen.randint]
    split_ifs
    · exact ih _ _ _ hf
    · exact ih _ _ _ hf
    · exact aux_carve_room_mono _ _ _ _ _ _ _ _ _ hf
    · exact ih _ _ _ (aux_carve_room_mono _ _ _ _ _ _ _ _ _ hf)

/-- The room-sampling loop only appends to the accepted-room list. -/
theorem aux_roomsGo_appends (w h mn mx : ℕ) :
    ∀ (fuel : ℕ) (rooms : List LevelGen.Room) (g : LevelGen.Grid)
      (s : LevelGen.RNG),
    ∃ t, (LevelGen.roomsGo w h mn mx fuel (rooms, g, s)).1 = rooms ++ t := by
  intro fuel
  induction fuel with
  | zero => intro rooms g s; exact ⟨[], (List.append_nil rooms).symm⟩
  | succ n ih =>
    intro rooms g s
    simp only [LevelGen.roomsGo, LevelGen.randint]
    split_ifs
    · exact ih _ _ _
    · exact ih _ _ _
    · exact ⟨_, rfl⟩
    · obtain ⟨t, ht⟩ := ih (rooms ++ [_]) _ _
      exact ⟨_, by rw [ht, List.append_assoc]⟩

/-- The first pass of the sampling loop always accepts its room: the
bounds guard cannot fire (`max 1 _ ≥ 1`) and nothing can overlap the
empty room list.  The accepted room's sides are at least `min_room`. -/
theorem aux_roomsGo_first (w h mn mx : ℕ) (fuel : ℕ) (g : LevelGen.Grid)
    (s : LevelGen.RNG) :
    ∃ (r0 : LevelGen.Room) (s' : LevelGen.RNG),
      LevelGen.roomsGo w h mn mx (fuel + 1) ([], g, s)
        = LevelGen.roomsGo w h mn mx fuel
            ([r0], LevelGen.carve_room w h g r0.x r0.y r0.w r0.h, s') ∧
      mn ≤ r0.w ∧ mn ≤ r0.h := by
  simp only [LevelGen.roomsGo, LevelGen.randint]
  rw [if_neg (by
    push_neg
    exact ⟨Nat.le_max_left 1 _, Nat.le_max_left 1 _⟩)]
  rw [if_neg (by simp [LevelGen.room_overlaps])]
  rw [if_neg (by simp)]
  exact ⟨_, _, rfl, Nat.le_add_right _ _, Nat.le_add_right _ _⟩

/-- The initial all-wall grid has the right dimensions. -/
theorem aux_initTiles_shape (w h : ℕ) :
    LevelGen.gridShape (LevelGen.initTiles w h) w h := by
  constructor
  · exact List.length_replicate h _
  · intro row hrow
    rw [List.eq_of_mem_replicate hrow]
    exact List.length_replicate w _

set_option maxRecDepth 40000 in
/-- C5 counterexample: on a degenerate 2×2 level (with the global RNG
drawing zeros) the single accepted room `(1, 1, 2, 2)` is clipped by the
grid border, its centre tile `(2, 2)` lies outside the grid, and the
spawn position `(64, 64)` is therefore not on a floor tile — yet a room
WAS accepted, so the "fixed safe tile" fallback never runs (and the
grid is all wall except `(1, 1)`, so that fallback tile `(2, 2)` would
not be floor either). -/
theorem C5_counterexample :
    (LevelGen.generate_level 2 2 (fun _ => 0)).rooms = [⟨1, 1, 2, 2⟩] ∧
    (LevelGen.generate_level 2 2 (fun _ => 0)).spawn_position = (64, 64) ∧
    LevelGen.is_floor_tile (LevelGen.generate_level 2 2 (fun _ => 0))
      (LevelGen.spawnTile (LevelGen.generate_level 2 2 (fun _ => 0))).1
      (LevelGen.spawnTile (LevelGen.generate_level 2 2 (fun _ => 0))).2
      = false := by
  decide

/-- C5 (amended): the generated room list is never empty (the first
sampling attempt always accepts, so the fallback spawn is dead code),
the spawn position is the centre of the first accepted room scaled by
`tile_size`, and WHENEVER that first room lies entirely inside the grid
the spawn position's tile is a floor tile. -/
theorem C5_spawn_on_floor (w h : ℕ) (s : LevelGen.RNG) (r0 : LevelGen.Room)
    (hhead : (LevelGen.generate_level w h s).rooms.head? = some r0)
    (hxw : r0.x + r0.w ≤ w) (hyh : r0.y + r0.h ≤ h) :
    (LevelGen.generate_level w h s).rooms ≠ [] ∧
    (LevelGen.generate_level w h s).spawn_position
      = ((r0.x + r0.w / 2) * 32, (r0.y + r0.h / 2) * 32) ∧
    LevelGen.is_floor_tile (LevelGen.generate_level w h s)
      (LevelGen.spawnTile (LevelGen.generate_level w h s)).1
      (LevelGen.spawnTile (LevelGen.generate_level w h s)).2 = true := by
  obtain ⟨r1, s', hgo, hw1, hh1⟩ :=
    aux_roomsGo_first w h (min 4 (max 2 (w / 4)))
      (min 12 (max (max (min 4 (max 2 (w / 4)) + 1) (w / 3)) (h / 3))) 99
      (LevelGen.initTiles w h) s
  have hgr : LevelGen.generate_rooms w h (LevelGen.initTiles w h) s
      = LevelGen.roomsGo w h (min 4 (max 2 (w / 4)))
          (min 12 (max (max (min 4 (max 2 (w / 4)) + 1) (w / 3)) (h / 3)))
          (99 + 1) ([], LevelGen.initTiles w h, s) := rfl
  have hrooms1 : LevelGen.generate_rooms w h (LevelGen.initTiles w h) s
      = LevelGen.roomsGo w h (min 4 (max 2 (w / 4)))
          (min 12 (max (max (min 4 (max 2 (w / 4)) + 1) (w / 3)) (h / 3))) 99
          ([r1], LevelGen.carve_room w h (LevelGen.initTiles w h)
            r1.x r1.y r1.w r1.h, s') := hgr.trans hgo
  obtain ⟨t, ht⟩ := aux_roomsGo_appends w h (min 4 (max 2 (w / 4)))
    (min 12 (max (max (min 4 (max 2 (w / 4)) + 1) (w / 3)) (h / 3))) 99 [r1]
    (LevelGen.carve_room w h (LevelGen.initTiles w h) r1.x r1.y r1.w r1.h) s'
  have hroomsL : (LevelGen.generate_level w h s).rooms = r1 :: t := by
    show (LevelGen.generate_rooms w h (LevelGen.initTiles w h) s).1 = r1 :: t
    rw [hrooms1, ht]
    rfl
  have heq : r1 = r0 := by
    rw [hroomsL] at hhead
    simpa using hhead
  subst heq
  have h2mn : 2 ≤ min 4 (max 2 (w / 4)) :=
    le_min (by norm_num) (Nat.le_max_left 2 _)
  have hwpos : 0 < r1.w := by omega
  have hhpos : 0 < r1.h := by omega
  have hdivw : r1.w / 2 < r1.w := Nat.div_lt_self hwpos (by norm_num)
  have hdivh : r1.h / 2 < r1.h := Nat.div_lt_self hhpos (by norm_num)
  have htxw : r1.x + r1.w / 2 < w := by omega
  have htyh : r1.y + r1.h / 2 < h := by omega
  have hcenter := aux_carve_room_sets w h r1.x r1.y r1.w r1.h
    (LevelGen.initTiles w h) (aux_initTiles_shape w h) (r1.w / 2) (r1.h / 2)
    hdivw hdivh htxw htyh
  have hafter := aux_roomsGo_mono w h (min 4 (max 2 (w / 4)))
    (min 12 (max (max (min 4 (max 2 (w / 4)) + 1) (w / 3)) (h / 3)))
    (r1.x + r1.w / 2) (r1.y + r1.h / 2) 99 [r1]
    (LevelGen.carve_room w h (LevelGen.initTiles w h) r1.x r1.y r1.w r1.h) s'
    hcenter
  have hfinal : LevelGen.tileAt (LevelGen.generate_level w h s).tiles
      (r1.x + r1.w / 2) (r1.y + r1.h / 2) = LevelGen.TileKind.floor := by
    show LevelGen.tileAt
      (LevelGen.connect_rooms w h
        (LevelGen.generate_rooms w h (LevelGen.initTiles w h) s).2.1
        (LevelGen.generate_rooms w h (LevelGen.initTiles w h) s).1
        (LevelGen.generate_rooms w h (LevelGen.initTiles w h) s).2.2).1
      (r1.x + r1.w / 2) (r1.y + r1.h / 2) = LevelGen.TileKind.floor
    rw [hrooms1]
    exact aux_connect_mono _ _ _ _ _ _ _ hafter
  have hspawn : (LevelGen.generate_level w h s).spawn_position
      = ((r1.x + r1.w / 2) * 32, (r1.y + r1.h / 2) * 32) := by
    show (match (LevelGen.generate_rooms w h (LevelGen.initTiles w h) s).1 with
      | [] => (32 * 2, 32 * 2)
      | r :: _ => ((r.x + r.w / 2) * 32, (r.y + r.h / 2) * 32))
      = ((r1.x + r1.w / 2) * 32, (r1.y + r1.h / 2) * 32)
    rw [hrooms1, ht]
    rfl
  refine ⟨by rw [hroomsL]; exact List.cons_ne_nil _ _, hspawn, ?_⟩
  have hwidth : (LevelGen.generate_level w h s).width = w := rfl
  have hheight : (LevelGen.generate_level w h s).height = h := rfl
  unfold LevelGen.is_floor_tile LevelGen.spawnTile
  rw [hspawn, hwidth, hheight]
  simp only [Nat.mul_div_cancel _ (by norm_num : (0 : ℕ) < 32)]
  simp [htxw, htyh, hfinal]

set_option maxRecDepth 40000 in
/-- Witness for C5: an 8×8 level whose first (and only) accepted room
`(1, 1, 2, 2)` fits in the grid; the spawn tile is floor. -/
theorem C5_witness :
    LevelGen.is_floor_tile (LevelGen.generate_level 8 8 (fun _ => 0))
      (LevelGen.spawnTile (LevelGen.generate_level 8 8 (fun _ => 0))).1
      (LevelGen.spawnTile (LevelGen.generate_level 8 8 (fun _ => 0))).2
      = true :=
  (C5_spawn_on_floor 8 8 (fun _ => 0) ⟨1, 1, 2, 2⟩ (by decide) (by norm_num)
    (by norm_num)).2.2

set_option maxRecDepth 40000 in
/-- C8 counterexample: `Level.generate_level` takes no seed — its only
declared inputs are the dimensions, and all randomness comes from the
global `random` module (modelled as the ambient draw stream).  Two runs
with identical declared inputs (width 8, height 8) but different global
RNG states produce different levels, so no function of
`(width, height, seed)` describes the code. -/
theorem C8_counterexample :
    (LevelGen.generate_level 8 8 (fun _ => 0)).spawn_position = (64, 64) ∧
    (LevelGen.generate_level 8 8 (fun _ => 1)).spawn_position = (96, 96) ∧
    LevelGen.generate_level 8 8 (fun _ => 0)
      ≠ LevelGen.generate_level 8 8 (fun _ => 1) := by
  refine ⟨by decide, by decide, fun hc => ?_⟩
  have := congrArg LevelGen.GenLevel.spawn_position hc
  rw [show (LevelGen.generate_level 8 8 (fun _ => 0)).spawn_position
      = (64, 64) by decide,
    show (LevelGen.generate_level 8 8 (fun _ => 1)).spawn_position
      = (96, 96) by decide] at this
  cases this

/-- Agreement on the first `n` draws restricts to fewer draws. -/
theorem aux_agree_mono (m n : ℕ) (s₁ s₂ : LevelGen.RNG) (hmn : m ≤ n)
    (h : LevelGen.agree n s₁ s₂) : LevelGen.agree m s₁ s₂ :=
  fun i hi => h i (lt_of_lt_of_le hi hmn)

/-- Consuming one draw keeps agreement on the remainder. -/
theorem aux_agree_shift (n : ℕ) (s₁ s₂ : LevelGen.RNG)
    (h : LevelGen.agree (n + 1) s₁ s₂) :
    LevelGen.agree n (LevelGen.shift s₁) (LevelGen.shift s₂) :=
  fun i hi => h (i + 1) (by omega)

/-- The sampling loop is a function of the first `4 · fuel` draws: with
agreement on `n ≥ 4 · fuel` draws both runs produce the same rooms and
grid, and the leftover streams agree on the remaining `n - 4 · fuel`
draws. -/
theorem aux_roomsGo_agree (w h mn mx : ℕ) :
    ∀ (fuel : ℕ) (rooms : List LevelGen.Room) (g : LevelGen.Grid)
      (s₁ s₂ : LevelGen.RNG) (n : ℕ), 4 * fuel ≤ n →
      LevelGen.agree n s₁ s₂ →
      (LevelGen.roomsGo w h mn mx fuel (rooms, g, s₁)).1
          = (LevelGen.roomsGo w h mn mx fuel (rooms, g, s₂)).1 ∧
      (LevelGen.roomsGo w h mn mx fuel (rooms, g, s₁)).2.1
          = (LevelGen.roomsGo w h mn mx fuel (rooms, g, s₂)).2.1 ∧
      LevelGen.agree (n - 4 * fuel)
        (LevelGen.roomsGo w h mn mx fuel (rooms, g, s₁)).2.2
        (LevelGen.roomsGo w h mn mx fuel (rooms, g, s₂)).2.2 := by
  intro fuel
  induction fuel with
  | zero =>
    intro rooms g s₁ s₂ n _ hag
    exact ⟨rfl, rfl, by simpa using hag⟩
  | succ m ih =>
    intro rooms g s₁ s₂ n hn hag
    have h0 : s₁ 0 = s₂ 0 := hag 0 (by omega)
    have h1 : s₁ 1 = s₂ 1 := hag 1 (by omega)
    have h2 : s₁ 2 = s₂ 2 := hag 2 (by omega)
    have h3 : s₁ 3 = s₂ 3 := hag 3 (by omega)
    have hsh1 : LevelGen.agree (n - 1) (LevelGen.shift s₁) (LevelGen.shift s₂) :=
      fun i hi => hag (i + 1) (by omega)
    have hsh2 : LevelGen.agree (n - 2)
        (LevelGen.shift (LevelGen.shift s₁))
        (LevelGen.shift (LevelGen.shift s₂)) :=
      fun i hi => hag (i + 2) (by omega)
    have hsh4 : LevelGen.agree (n - 4)
        (LevelGen.shift (LevelGen.shift (LevelGen.shift (LevelGen.shift s₁))))
        (LevelGen.shift (LevelGen.shift (LevelGen.shift (LevelGen.shift s₂)))) :=
      fun i hi => hag (i + 4) (by omega)
    simp only [LevelGen.roomsGo, LevelGen.randint, LevelGen.shift, h0, h1, h2, h3]
    split_ifs
    · obtain ⟨ha, hb, hc⟩ := ih rooms g _ _ (n - 2) (by omega) hsh2
      exact ⟨ha, hb, aux_agree_mono _ _ _ _ (by omega) hc⟩
    · obtain ⟨ha, hb, hc⟩ := ih rooms g _ _ (n - 4) (by omega) hsh4
      exact ⟨ha, hb, aux_agree_mono _ _ _ _ (by omega) hc⟩
    · exact ⟨rfl, rfl, aux_agree_mono _ _ _ _ (by omega) hsh4⟩
    · obtain ⟨ha, hb, hc⟩ := ih _ _ _ _ (n - 4) (by omega) hsh4
      exact ⟨ha, hb, aux_agree_mono _ _ _ _ (by omega) hc⟩

/-- Corridor generation is a function of the first `len - 1` draws. -/
theorem aux_connect_agree (w h : ℕ) :
    ∀ (rooms : List LevelGen.Room) (g : LevelGen.Grid)
      (s₁ s₂ : LevelGen.RNG) (n : ℕ), rooms.length ≤ n + 1 →
      LevelGen.agree n s₁ s₂ →
      (LevelGen.connect_rooms w h g rooms s₁).1
        = (LevelGen.connect_rooms w h g rooms s₂).1 := by
  intro rooms
  induction rooms with
  | nil => intro g s₁ s₂ n _ _; rfl
  | cons r1 rest ih =>
    rcases rest with _ | ⟨r2, rest'⟩
    · intro g s₁ s₂ n _ _; rfl
    · intro g s₁ s₂ n hlen hag
      have hn : 1 ≤ n := by
        simp only [List.length_cons] at hlen
        omega
      have h0 : s₁ 0 = s₂ 0 := hag 0 (by omega)
      unfold LevelGen.connect_rooms
      simp only [List.tail_cons, List.zip_cons_cons, List.foldl_cons]
      dsimp only [LevelGen.randBool]
      rw [h0]
      have hag' : LevelGen.agree (n - 1) (LevelGen.shift s₁)
          (LevelGen.shift s₂) := fun i hi => hag (i + 1) (by omega)
      have hlen' : (r2 :: rest').length ≤ (n - 1) + 1 := by
        simp only [List.length_cons] at hlen ⊢
        omega
      by_cases hb : (s₂ 0 % 2 == 0) = true
      · rw [if_pos hb, if_pos hb]
        exact ih _ _ _ (n - 1) hlen' hag'
      · rw [if_neg hb, if_neg hb]
        exact ih _ _ _ (n - 1) hlen' hag'

/-- Starting below the 8-room cap, the sampling loop never returns more
than 8 rooms. -/
theorem aux_roomsGo_length (w h mn mx : ℕ) :
    ∀ (fuel : ℕ) (rooms : List LevelGen.Room) (g : LevelGen.Grid)
      (s : LevelGen.RNG), rooms.length ≤ 7 →
      (LevelGen.roomsGo w h mn mx fuel (rooms, g, s)).1.length ≤ 8 := by
  intro fuel
  induction fuel with
  | zero => intro rooms g s hl; exact le_trans hl (by norm_num)
  | succ m ih =>
    intro rooms g s hl
    simp only [LevelGen.roomsGo, LevelGen.randint]
    split_ifs with h1 h2 h3
    · exact ih _ _ _ hl
    · exact ih _ _ _ hl
    · simp only [List.length_append, List.length_cons, List.length_nil]
      omega
    · refine ih _ _ _ ?_
      simp only [List.length_append, List.length_cons, List.length_nil] at h3 ⊢
      omega

/-- C8 (amended): generation is deterministic as a function of
`(width, height)` and the global RNG's draw sequence: the whole level
depends only on the first 408 draws (at most 4 per sampling attempt ×
100 attempts, plus one corridor-orientation draw per connected pair,
≤ 8 rooms), so two runs under equal dimensions and equal draw prefixes
build identical levels. -/
theorem C8_generation_determinism (w h : ℕ) (s₁ s₂ : LevelGen.RNG)
    (hag : LevelGen.agree 408 s₁ s₂) :
    LevelGen.generate_level w h s₁ = LevelGen.generate_level w h s₂ := by
  obtain ⟨hrooms, hgrid, hrest⟩ := aux_roomsGo_agree w h
    (min 4 (max 2 (w / 4)))
    (min 12 (max (max (min 4 (max 2 (w / 4)) + 1) (w / 3)) (h / 3)))
    100 [] (LevelGen.initTiles w h) s₁ s₂ 408 (by norm_num) hag
  have hlen := aux_roomsGo_length w h
    (min 4 (max 2 (w / 4)))
    (min 12 (max (max (min 4 (max 2 (w / 4)) + 1) (w / 3)) (h / 3)))
    100 [] (LevelGen.initTiles w h) s₁ (by norm_num)
  have hgr1 : (LevelGen.generate_rooms w h (LevelGen.initTiles w h) s₁).1
      = (LevelGen.generate_rooms w h (LevelGen.initTiles w h) s₂).1 := hrooms
  have hgr2 : (LevelGen.generate_rooms w h (LevelGen.initTiles w h) s₁).2.1
      = (LevelGen.generate_rooms w h (LevelGen.initTiles w h) s₂).2.1 := hgrid
  have hgr3 : LevelGen.agree 8
      (LevelGen.generate_rooms w h (LevelGen.initTiles w h) s₁).2.2
      (LevelGen.generate_rooms w h (LevelGen.initTiles w h) s₂).2.2 :=
    aux_agree_mono 8 (408 - 4 * 100) _ _ (by norm_num) hrest
  have hlen1 : (LevelGen.generate_rooms w h (LevelGen.initTiles w h) s₁).1.length
      ≤ 8 := hlen
  have hconn : (LevelGen.connect_rooms w h
        (LevelGen.generate_rooms w h (LevelGen.initTiles w h) s₁).2.1
        (LevelGen.generate_rooms w h (LevelGen.initTiles w h) s₁).1
        (LevelGen.generate_rooms w h (LevelGen.initTiles w h) s₁).2.2).1
      = (LevelGen.connect_rooms w h
        (LevelGen.generate_rooms w h (LevelGen.initTiles w h) s₂).2.1
        (LevelGen.generate_rooms w h (LevelGen.initTiles w h) s₂).1
        (LevelGen.generate_rooms w h (LevelGen.initTiles w h) s₂).2.2).1 := by
    rw [← hgr1, ← hgr2]
    exact aux_connect_agree w h _ _ _ _ 7 (by omega)
      (aux_agree_mono 7 8 _ _ (by norm_num) hgr3)
  show LevelGen.GenLevel.mk w h
      (LevelGen.connect_rooms w h
        (LevelGen.generate_rooms w h (LevelGen.initTiles w h) s₁).2.1
        (LevelGen.generate_rooms w h (LevelGen.initTiles w h) s₁).1
        (LevelGen.generate_rooms w h (LevelGen.initTiles w h) s₁).2.2).1
      (LevelGen.generate_rooms w h (LevelGen.initTiles w h) s₁).1
      (match (LevelGen.generate_rooms w h (LevelGen.initTiles w h) s₁).1 with
        | [] => (32 * 2, 32 * 2)
        | r :: _ => ((r.x + r.w / 2) * 32, (r.y + r.h / 2) * 32))
      = LevelGen.GenLevel.mk w h
      (LevelGen.connect_rooms w h
        (LevelGen.generate_rooms w h (LevelGen.initTiles w h) s₂).2.1
        (LevelGen.generate_rooms w h (LevelGen.initTiles w h) s₂).1
        (LevelGen.generate_rooms w h (LevelGen.initTiles w h) s₂).2.2).1
      (LevelGen.generate_rooms w h (LevelGen.initTiles w h) s₂).1
      (match (LevelGen.generate_rooms w h (LevelGen.initTiles w h) s₂).1 with
        | [] => (32 * 2, 32 * 2)
        | r :: _ => ((r.x + r.w / 2) * 32, (r.y + r.h / 2) * 32))
  rw [hconn, hgr1]

/-- Witness for C8: two globally different streams that agree on their
first 408 draws generate the same 8×8 level. -/
theorem C8_witness :
    LevelGen.generate_level 8 8 (fun _ => 0)
      = LevelGen.generate_level 8 8 (fun i => if i < 408 then 0 else 7) :=
  C8_generation_determinism 8 8 (fun _ => 0)
    (fun i => if i < 408 then 0 else 7)
    (fun i hi => by simp [hi])
